import Mathlib

/-!
# Verification of the SNMP worker (`plugins/inputs/snmp/snmp_worker.go`)

A shallow embedding of `gatherTable` and `snmpWorker.Gather`.

Modelling conventions:

* A Go `map[string]string` is an association list with unique keys
  (`AList`); `m[k] = v` is `AList.insert`, `v, ok := m[k]` is `AList.lookup`,
  and `for k, v := range m` visits the entries of the list (the result of the
  loops of this file does not depend on the visiting order, because the keys
  of a map are unique).
* Every row owns its tag map (no two rows share one map, and no row shares
  its map with `topTags`), so the in-place mutation of `tr.Tags` is modelled
  by returning the updated row.
* The external builder `Table.Build` is a parameter `build`; it returns either
  an error or a table, and the tag map of every row of that table exists (is
  not `nil`).
* A channel is the list of the values sent through it, oldest first.
-/

namespace Snmp

/-- A Go `map[string]string`. -/
abbrev TagMap := AList (fun _ : String => String)

/-- Modelled from the spec: the `error` values of the program. `base` is an
error of the external builder, `nested` is what `Errorf(err, format, args...)`
returns: the formatted context message together with the cause it wraps. -/
inductive GoError where
  | base (msg : String)
  | nested (context : String) (cause : GoError)
  deriving DecidableEq, Repr

/-- Modelled from the spec: `Errorf(err, msg, format...)` wraps the cause `err`
with the formatted context string, keeping the cause. -/
def Errorf (err : GoError) (formatted : String) : GoError :=
  GoError.nested formatted err

/-- Modelled from the spec: a connection is an opaque handle identifying one
remote agent, exposing a host identifier. -/
structure snmpConnection where
  handle : Nat
  host : String
  deriving DecidableEq, Repr

/-- The method `Host()` of a connection. -/
def snmpConnection.Host (gs : snmpConnection) : String := gs.host

/-- Modelled from the spec: a field definition of a table (opaque to the
worker). -/
structure Field where
  Name : String
  Oid : String
  deriving DecidableEq, Repr

/-- Modelled from the spec: a table definition is a name, an ordered sequence
of field definitions and the tag keys to inherit. -/
structure Table where
  Name : String
  Fields : List Field := []
  InheritTags : List String := []
  deriving DecidableEq, Repr

/-- Modelled from the spec: one row of a built table, its tag mapping and its
data fields. -/
structure RTableRow where
  Tags : TagMap
  Fields : List (String × String)
  deriving DecidableEq

/-- Modelled from the spec: the result table of one gather operation, an
ordered sequence of rows. -/
structure RTable where
  Name : String
  Rows : List RTableRow
  deriving DecidableEq

/-- The external builder `t.Build(gs, walk)`. -/
abbrev Builder := snmpConnection → Table → Bool → Except GoError RTable

/-- The loop `for k, v := range tr.Tags { topTags[k] = v }`. -/
def addTopTags (topTags : TagMap) (rowTags : TagMap) : TagMap :=
  rowTags.entries.foldl (fun tt e => tt.insert e.1 e.2) topTags

/-- The loop `for _, k := range t.InheritTags { if v, ok := topTags[k]; ok { tr.Tags[k] = v } }`. -/
def inheritTags (inherit : List String) (topTags : TagMap) (rowTags : TagMap) : TagMap :=
  inherit.foldl
    (fun tags k =>
      match topTags.lookup k with
      | some v => tags.insert k v
      | none => tags)
    rowTags

/-- The statement `if _, ok := tr.Tags["agent_host"]; !ok { tr.Tags["agent_host"] = gs.Host() }`. -/
def defaultAgentHost (gs : snmpConnection) (tags : TagMap) : TagMap :=
  match tags.lookup "agent_host" with
  | some _ => tags
  | none => tags.insert "agent_host" gs.Host

/-- The body of the loop over `rt.Rows` in `gatherTable`, for one row: the
state is `topTags`, the result is the new `topTags` and the updated row. -/
def gatherRow (gs : snmpConnection) (t : Table) (walk : Bool)
    (topTags : TagMap) (tr : RTableRow) : TagMap × RTableRow :=
  if !walk then
    let topTags1 := addTopTags topTags tr.Tags
    (topTags1, { tr with Tags := defaultAgentHost gs tr.Tags })
  else
    let tags1 := inheritTags t.InheritTags topTags tr.Tags
    (topTags, { tr with Tags := defaultAgentHost gs tags1 })

/-- The loop `for _, tr := range rt.Rows` of `gatherTable`. -/
def gatherRows (gs : snmpConnection) (t : Table) (walk : Bool) :
    TagMap → List RTableRow → TagMap × List RTableRow
  | topTags, [] => (topTags, [])
  | topTags, tr :: rest =>
    let (topTags1, tr1) := gatherRow gs t walk topTags tr
    let (topTags2, rest1) := gatherRows gs t walk topTags1 rest
    (topTags2, tr1 :: rest1)

/-- The result of `gatherTable`: the returned pair `(*RTable, error)` and the
`topTags` map after the call. -/
structure GatherResult where
  rt : Option RTable
  err : Option GoError
  topTags : TagMap
  deriving DecidableEq

/-- The function `gatherTable(gs, t, topTags, walk)`. -/
def gatherTable (build : Builder) (gs : snmpConnection) (t : Table)
    (topTags : TagMap) (walk : Bool) : GatherResult :=
  match build gs t walk with
  | Except.error err => { rt := none, err := some err, topTags := topTags }
  | Except.ok rt =>
    let (topTags1, rows1) := gatherRows gs t walk topTags rt.Rows
    { rt := some { rt with Rows := rows1 }, err := none, topTags := topTags1 }

/-- The type `workerResult`: the outcome of work done by one of the workers. -/
structure workerResult where
  Err : Option GoError := none
  Result : Option RTable := none
  deriving DecidableEq

/-- The method `IsError`: `wr.Err != nil`. -/
def workerResult.IsError (wr : workerResult) : Bool :=
  wr.Err != none

/-- The type `snmpWorker`: `jobs` holds the connections the worker will
receive from its job queue, `results` the outcomes sent so far to the result
queue (oldest first), `wg` the counter of the wait group. -/
structure snmpWorker where
  jobs : List snmpConnection
  results : List workerResult
  wg : Nat
  deriving DecidableEq

/-- The method `registerData`: `w.results <- workerResult{Result: r}`. -/
def snmpWorker.registerData (w : snmpWorker) (r : Option RTable) : snmpWorker :=
  { w with results := w.results ++ [{ Result := r }] }

/-- The method `registerError`: `w.results <- workerResult{Err: err}`. -/
def snmpWorker.registerError (w : snmpWorker) (err : GoError) : snmpWorker :=
  { w with results := w.results ++ [{ Err := some err }] }

/-- The body of the loop `for _, t := range tables` in `Gather`; the state is
the worker together with the `topTags` map of the connection. -/
def gatherRealTable (build : Builder) (conn : snmpConnection)
    (st : snmpWorker × TagMap) (t : Table) : snmpWorker × TagMap :=
  let r := gatherTable build conn t st.2 true
  match r.err with
  | some err =>
    (st.1.registerError
      (Errorf err ("agent: " ++ conn.Host ++ ": gathering table " ++ t.Name)), r.topTags)
  | none => (st.1.registerData r.rt, r.topTags)

/-- The body of the loop `for conn := range w.jobs` in `Gather`. -/
def gatherConn (build : Builder) (name : String) (fields : List Field)
    (tables : List Table) (w : snmpWorker) (conn : snmpConnection) : snmpWorker :=
  let t : Table := { Name := name, Fields := fields }
  let topTags : TagMap := ∅
  let r := gatherTable build conn t topTags false
  let w1 :=
    match r.err with
    | some err => w.registerError (Errorf err ("agent " ++ conn.Host))
    | none => w.registerData r.rt
  (tables.foldl (gatherRealTable build conn) (w1, r.topTags)).1

/-- The method `Gather(name, fields, tables)`: the worker drains its job queue,
then signals completion (`defer w.wg.Done()`). -/
def snmpWorker.Gather (build : Builder) (w : snmpWorker) (name : String)
    (fields : List Field) (tables : List Table) : snmpWorker :=
  let w1 := w.jobs.foldl (gatherConn build name fields tables) { w with jobs := [] }
  { w1 with wg := w1.wg - 1 }

/-! ## Notions used to state the properties -/

/-- The value of key `k` in the last row (largest index) whose tags contain
`k`, if there is such a row. -/
def lastRowValue (rows : List RTableRow) (k : String) : Option String :=
  rows.reverse.findSome? (fun tr => tr.Tags.lookup k)

/-- The `agent_host` value supplied to a row before the fallback: the
inherited value when the pass is a real-table pass, `agent_host` is listed in
`InheritTags` and `topTags` has it; otherwise the value the builder gave the
row, if any. -/
def suppliedAgentHost (t : Table) (topTags : TagMap) (walk : Bool)
    (tr : RTableRow) : Option String :=
  if walk = true ∧ "agent_host" ∈ t.InheritTags ∧ (topTags.lookup "agent_host").isSome then
    topTags.lookup "agent_host"
  else
    tr.Tags.lookup "agent_host"

/-- The value the worker sends for the result `r` of a `gatherTable` call:
the error wrapped with `context` when `r` carries an error, the table
otherwise. -/
def sentFor (r : GatherResult) (context : String) : workerResult :=
  match r.err with
  | some err => { Err := some (Errorf err context) }
  | none => { Result := r.rt }

/-- The outcome `o` is the outcome of a `gatherTable` call that returned `r`
after the builder returned `b`: an error outcome (without table) exactly when
the builder failed, a success outcome carrying the table of `r` otherwise. -/
def isOutcomeOf (b : Except GoError RTable) (r : GatherResult) (o : workerResult) : Prop :=
  (o.IsError = true ↔ ∃ e, b = Except.error e) ∧
  (o.IsError = true → o.Result = none) ∧
  (o.IsError = false → o.Err = none ∧ o.Result = r.rt ∧ r.rt.isSome = true)

/-- A worker that has received nothing and sent nothing. -/
def idleWorker : snmpWorker := { jobs := [], results := [], wg := 1 }

/-- The builder call `b` failed. -/
def builderFailed (b : Except GoError RTable) : Bool :=
  match b with
  | Except.error _ => true
  | Except.ok _ => false

/-- The error `err` references `host`: it was built by `Errorf` with a context
string in which `host` occurs. -/
def mentionsHost (host : String) (err : GoError) : Prop :=
  ∃ before after cause, err = GoError.nested (before ++ host ++ after) cause

/-- Exactly one of the two variants of the outcome is populated: either `Err`
is set, `Result` is empty and `IsError` is true, or `Result` carries a table,
`Err` is empty and `IsError` is false. -/
def exactlyOneVariant (o : workerResult) : Prop :=
  (o.Err.isSome = true ∧ o.Result = none ∧ o.IsError = true) ∨
  (o.Err = none ∧ o.Result.isSome = true ∧ o.IsError = false)

/-! ## The pool of workers -/

/-- An outcome on the shared result queue, named by the position `job` of its
connection in the order of submission and by its position `pos` among the
outcomes of that connection (`0` for the top-level gather, `j + 1` for the
table of index `j`). The two numbers are not data of the program; they only
name the outcome in the statements. -/
structure Emission where
  job : Nat
  pos : Nat
  out : workerResult
  deriving DecidableEq

/-- The outcomes `os` of the connection number `job`, named from position `k`. -/
def labelFrom (job : Nat) : Nat → List workerResult → List Emission
  | _, [] => []
  | k, o :: os => { job := job, pos := k, out := o } :: labelFrom job (k + 1) os

/-- The sends of one iteration of the loop `for conn := range w.jobs` of
`Gather`, for the connection `j.2` submitted at position `j.1`. -/
def connEmissions (build : Builder) (name : String) (fields : List Field)
    (tables : List Table) (j : Nat × snmpConnection) : List Emission :=
  labelFrom j.1 0 (gatherConn build name fields tables idleWorker j.2).results

/-- Modelled from the spec: the pool coordinator (not in this file of the
repository) creates the workers, which share one job queue and one result
queue. The state of the pool is the content of the job queue, for every worker
the sends left in the iteration of `Gather` it is in (none when it waits on
the job queue), and the content of the result queue. -/
structure PoolState where
  jobs : List (Nat × snmpConnection)
  workers : List (List Emission)
  results : List Emission

/-- Modelled from the spec: the pool before any worker has run, all the
connections being in the job queue in the order of submission. -/
def poolStart (conns : List snmpConnection) (W : Nat) : PoolState :=
  { jobs := conns.enumFrom 0, workers := List.replicate W [], results := [] }

/-- Modelled from the spec: one atomic step of the worker number `w`: inside
an iteration of `Gather` it performs its next send on the result queue; waiting
on the job queue it receives the next connection and starts the iteration for
it; when the job queue is closed and drained it has returned and does
nothing. -/
def poolStep (build : Builder) (name : String) (fields : List Field)
    (tables : List Table) (s : PoolState) (w : Nat) : PoolState :=
  match s.workers[w]? with
  | none => s
  | some (x :: xs) => { s with workers := s.workers.set w xs, results := s.results ++ [x] }
  | some [] =>
    match s.jobs with
    | [] => s
    | j :: rest =>
      { s with jobs := rest,
               workers := s.workers.set w (connEmissions build name fields tables j) }

/-- Modelled from the spec: the pool run under a schedule, the list of the
workers that take the successive steps. -/
def poolRun (build : Builder) (name : String) (fields : List Field)
    (tables : List Table) (sched : List Nat) (s : PoolState) : PoolState :=
  sched.foldl (poolStep build name fields tables) s

/-- The job queue is drained and every worker has finished its iteration. -/
def poolDone (s : PoolState) : Bool :=
  s.jobs.isEmpty && s.workers.all (fun p => p.isEmpty)

/-- The sequences of sends still to come in a pool state: those left to the
workers and those of the connections still in the job queue. -/
def poolPending (build : Builder) (name : String) (fields : List Field)
    (tables : List Table) (s : PoolState) : List (List Emission) :=
  s.workers ++ s.jobs.map (connEmissions build name fields tables)

/-! ## Concrete data -/

/-- The tag map holding the given bindings (the first binding of a key wins). -/
def tagsOf (l : List (String × String)) : TagMap :=
  l.foldr (fun e m => m.insert e.1 e.2) ∅

/-- A connection to the agent `10.0.0.1`. -/
def connA : snmpConnection := { handle := 1, host := "10.0.0.1" }

/-- The synthetic top-level table of the plugin `snmp`. -/
def topTable : Table := { Name := "snmp", Fields := [{ Name := "region", Oid := ".1.3.6.1.2.1.1.6.0" }] }

/-- A real table inheriting the tag `region`. -/
def ifTable : Table :=
  { Name := "ifTable", Fields := [{ Name := "ifDescr", Oid := ".1.3.6.1.2.1.2.2.1.2" }],
    InheritTags := ["region"] }

/-- A builder: the top-level fetch gives one row tagged `region=us`,
`site=a`; a walk gives two rows, the first tagged `region=eu`, the second
without tags. -/
def buildRegion : Builder := fun _ _ walk =>
  if walk then
    Except.ok { Name := "ifTable",
                Rows := [{ Tags := tagsOf [("region", "eu")], Fields := [("ifDescr", "eth0")] },
                         { Tags := tagsOf [], Fields := [("ifDescr", "lo")] }] }
  else
    Except.ok { Name := "snmp",
                Rows := [{ Tags := tagsOf [("region", "us"), ("site", "a")], Fields := [] }] }

/-- A builder whose single row is tagged with the host of the connection as
`agent_host`. -/
def buildHostTag : Builder := fun gs t _ =>
  Except.ok { Name := t.Name, Rows := [{ Tags := tagsOf [("agent_host", gs.Host)], Fields := [] }] }

/-- A builder that fails on every table. -/
def buildFail : Builder := fun _ t _ =>
  Except.error (GoError.base ("timeout on " ++ t.Name))

/-- A builder that fails on the top-level table and on the table `ifTable`
and succeeds on every other table. -/
def buildPartial : Builder := fun gs t walk =>
  if walk = false ∨ t.Name = "ifTable" then
    Except.error (GoError.base ("timeout on " ++ t.Name))
  else
    Except.ok { Name := t.Name, Rows := [{ Tags := tagsOf [("host", gs.Host)], Fields := [] }] }

/-- A real table inheriting the tag `region`, other than `ifTable`. -/
def memTable : Table :=
  { Name := "memTable", Fields := [{ Name := "free", Oid := ".1.3.6.1.4.1.2021.4.6" }],
    InheritTags := ["region"] }

/-- A builder whose top-level fetch is tagged `region=us` on the host
`10.0.0.1` only, and whose walks give one row without tags. -/
def buildPerHost : Builder := fun gs t walk =>
  if walk then
    Except.ok { Name := t.Name, Rows := [{ Tags := tagsOf [], Fields := [("v", "1")] }] }
  else if gs.Host = "10.0.0.1" then
    Except.ok { Name := t.Name, Rows := [{ Tags := tagsOf [("region", "us")], Fields := [] }] }
  else
    Except.ok { Name := t.Name, Rows := [{ Tags := tagsOf [], Fields := [] }] }

/-- A connection to the agent `agentX`. -/
def connX : snmpConnection := { handle := 7, host := "agentX" }

/-- A connection to the agent `10.0.0.2`. -/
def connB : snmpConnection := { handle := 2, host := "10.0.0.2" }

/-- A real table without inherited tags. -/
def cpuTable : Table :=
  { Name := "cpuTable", Fields := [{ Name := "load", Oid := ".1.3.6.1.4.1.2021.10.1.3" }] }

/-- A builder whose top-level fetch gives two rows, both tagged `region`. -/
def buildTwoRows : Builder := fun _ t _ =>
  Except.ok { Name := t.Name,
              Rows := [{ Tags := tagsOf [("region", "us"), ("site", "a")], Fields := [] },
                       { Tags := tagsOf [("region", "eu")], Fields := [] }] }

end Snmp


namespace Snmp

/-! ## Lemmas on the three tag steps -/

theorem lookup_foldl_insert (k : String) :
    ∀ (l : List (Sigma fun _ : String => String)) (tt : TagMap), l.NodupKeys →
      (l.foldl (fun tt e => tt.insert e.1 e.2) tt).lookup k
        = (match l.dlookup k with
          | some v => some v
          | none => tt.lookup k) := by
  intro l
  induction l with
  | nil => intro tt _; rfl
  | cons e l ih =>
    intro tt hnd
    obtain ⟨a, b⟩ := e
    rw [List.nodupKeys_cons] at hnd
    rw [List.foldl_cons, ih _ hnd.2]
    by_cases hk : k = a
    · subst hk
      have hnone : l.dlookup k = none := List.dlookup_eq_none.mpr hnd.1
      simp [hnone, AList.lookup_insert, List.dlookup_cons_eq]
    · rw [List.dlookup_cons_ne _ _ hk]
      cases l.dlookup k with
      | some v => rfl
      | none => simp [AList.lookup_insert_ne hk]

theorem lookup_addTopTags (topTags rowTags : TagMap) (k : String) :
    (addTopTags topTags rowTags).lookup k
      = (match rowTags.lookup k with
        | some v => some v
        | none => topTags.lookup k) := by
  unfold addTopTags
  rw [lookup_foldl_insert k rowTags.entries topTags rowTags.nodupKeys]
  rfl

theorem lookup_inheritTags_of_not_mem (topTags : TagMap) (k : String) :
    ∀ (inherit : List String) (rowTags : TagMap), k ∉ inherit →
      (inheritTags inherit topTags rowTags).lookup k = rowTags.lookup k := by
  intro inherit
  induction inherit with
  | nil => intro rowTags _; rfl
  | cons a l ih =>
    intro rowTags hk
    simp only [List.mem_cons, not_or] at hk
    simp only [inheritTags, List.foldl_cons]
    have := ih (match topTags.lookup a with
      | some v => rowTags.insert a v
      | none => rowTags) hk.2
    simp only [inheritTags] at this
    rw [this]
    cases topTags.lookup a with
    | none => rfl
    | some v => exact AList.lookup_insert_ne hk.1

theorem lookup_inheritTags_of_none (topTags : TagMap) (k : String)
    (hnone : topTags.lookup k = none) :
    ∀ (inherit : List String) (rowTags : TagMap),
      (inheritTags inherit topTags rowTags).lookup k = rowTags.lookup k := by
  intro inherit
  induction inherit with
  | nil => intro rowTags; rfl
  | cons a l ih =>
    intro rowTags
    simp only [inheritTags, List.foldl_cons]
    have := ih (match topTags.lookup a with
      | some v => rowTags.insert a v
      | none => rowTags)
    simp only [inheritTags] at this
    rw [this]
    by_cases hka : k = a
    · subst hka; rw [hnone]
    · cases topTags.lookup a with
      | none => rfl
      | some v => exact AList.lookup_insert_ne hka

theorem lookup_inheritTags_of_mem (topTags : TagMap) (k v : String)
    (hv : topTags.lookup k = some v) :
    ∀ (inherit : List String) (rowTags : TagMap), k ∈ inherit →
      (inheritTags inherit topTags rowTags).lookup k = some v := by
  intro inherit
  induction inherit with
  | nil => intro rowTags hk; simp at hk
  | cons a l ih =>
    intro rowTags hk
    simp only [inheritTags, List.foldl_cons]
    by_cases hmem : k ∈ l
    · have := ih (match topTags.lookup a with
        | some v => rowTags.insert a v
        | none => rowTags) hmem
      simpa only [inheritTags] using this
    · have hka : k = a := by
        rcases List.mem_cons.mp hk with h | h
        · exact h
        · exact absurd h hmem
      subst hka
      have := lookup_inheritTags_of_not_mem topTags k l (match topTags.lookup k with
        | some v => rowTags.insert k v
        | none => rowTags) hmem
      simp only [inheritTags] at this
      rw [this, hv]
      exact AList.lookup_insert _

theorem lookup_defaultAgentHost_self (gs : snmpConnection) (tags : TagMap) :
    (defaultAgentHost gs tags).lookup "agent_host"
      = (match tags.lookup "agent_host" with
        | some v => some v
        | none => some gs.Host) := by
  unfold defaultAgentHost
  cases h : tags.lookup "agent_host" with
  | some v => simp [h]
  | none => simp [AList.lookup_insert]

theorem lookup_defaultAgentHost_ne (gs : snmpConnection) (tags : TagMap) (k : String)
    (hk : k ≠ "agent_host") :
    (defaultAgentHost gs tags).lookup k = tags.lookup k := by
  unfold defaultAgentHost
  cases h : tags.lookup "agent_host" with
  | some v => rfl
  | none => exact AList.lookup_insert_ne hk

end Snmp

namespace Snmp

/-! ## Lemmas on the loop over the rows -/

theorem gatherRow_fst_walk (gs : snmpConnection) (t : Table) (topTags : TagMap)
    (tr : RTableRow) : (gatherRow gs t true topTags tr).1 = topTags := rfl

theorem gatherRow_snd_top (gs : snmpConnection) (t : Table) (topTags topTags1 : TagMap)
    (tr : RTableRow) :
    (gatherRow gs t false topTags1 tr).2 = (gatherRow gs t false topTags tr).2 := rfl

theorem gatherRow_tags_top (gs : snmpConnection) (t : Table) (topTags : TagMap)
    (tr : RTableRow) :
    (gatherRow gs t false topTags tr).2.Tags = defaultAgentHost gs tr.Tags := rfl

theorem gatherRow_tags_walk (gs : snmpConnection) (t : Table) (topTags : TagMap)
    (tr : RTableRow) :
    (gatherRow gs t true topTags tr).2.Tags
      = defaultAgentHost gs (inheritTags t.InheritTags topTags tr.Tags) := rfl

theorem gatherRow_fields (gs : snmpConnection) (t : Table) (walk : Bool) (topTags : TagMap)
    (tr : RTableRow) : (gatherRow gs t walk topTags tr).2.Fields = tr.Fields := by
  cases walk <;> rfl

theorem isSome_lookup_defaultAgentHost (gs : snmpConnection) (tags : TagMap) :
    ((defaultAgentHost gs tags).lookup "agent_host").isSome = true := by
  rw [lookup_defaultAgentHost_self]
  cases tags.lookup "agent_host" <;> rfl

theorem gatherRows_snd (gs : snmpConnection) (t : Table) (walk : Bool) :
    ∀ (rows : List RTableRow) (topTags : TagMap),
      (gatherRows gs t walk topTags rows).2
        = rows.map (fun tr => (gatherRow gs t walk topTags tr).2) := by
  intro rows
  induction rows with
  | nil => intro topTags; rfl
  | cons tr rest ih =>
    intro topTags
    simp only [gatherRows, List.map_cons]
    rw [ih]
    cases walk with
    | true => rfl
    | false => rfl

theorem gatherRows_fst_walk (gs : snmpConnection) (t : Table) :
    ∀ (rows : List RTableRow) (topTags : TagMap),
      (gatherRows gs t true topTags rows).1 = topTags := by
  intro rows
  induction rows with
  | nil => intro topTags; rfl
  | cons tr rest ih =>
    intro topTags
    simp only [gatherRows]
    rw [ih]
    rfl

theorem gatherRows_fst_top (gs : snmpConnection) (t : Table) :
    ∀ (rows : List RTableRow) (topTags : TagMap),
      (gatherRows gs t false topTags rows).1
        = rows.foldl (fun tt tr => addTopTags tt tr.Tags) topTags := by
  intro rows
  induction rows with
  | nil => intro topTags; rfl
  | cons tr rest ih =>
    intro topTags
    simp only [gatherRows, List.foldl_cons]
    rw [ih]
    rfl

theorem lookup_foldl_addTopTags (k : String) :
    ∀ (rows : List RTableRow) (topTags : TagMap),
      (rows.foldl (fun tt tr => addTopTags tt tr.Tags) topTags).lookup k
        = (match lastRowValue rows k with
          | some v => some v
          | none => topTags.lookup k) := by
  intro rows
  induction rows with
  | nil => intro topTags; rfl
  | cons tr rest ih =>
    intro topTags
    rw [List.foldl_cons, ih, lookup_addTopTags]
    have hlast : lastRowValue (tr :: rest) k
        = (lastRowValue rest k).or (tr.Tags.lookup k) := by
      have hone : List.findSome? (fun tr => AList.lookup k tr.Tags) [tr]
          = tr.Tags.lookup k := by
        simp only [List.findSome?]
        cases tr.Tags.lookup k <;> rfl
      simp only [lastRowValue, List.reverse_cons, List.findSome?_append, hone]
    rw [hlast]
    cases lastRowValue rest k with
    | some v => rfl
    | none => cases tr.Tags.lookup k <;> rfl

theorem gatherTable_ok (build : Builder) (gs : snmpConnection) (t : Table)
    (topTags : TagMap) (walk : Bool) (rt0 : RTable)
    (hb : build gs t walk = Except.ok rt0) :
    gatherTable build gs t topTags walk
      = { rt := some { rt0 with
                       Rows := rt0.Rows.map (fun tr => (gatherRow gs t walk topTags tr).2) },
          err := none,
          topTags := (gatherRows gs t walk topTags rt0.Rows).1 } := by
  simp only [gatherTable, hb]
  rw [← gatherRows_snd]

theorem gatherTable_error (build : Builder) (gs : snmpConnection) (t : Table)
    (topTags : TagMap) (walk : Bool) (e : GoError)
    (hb : build gs t walk = Except.error e) :
    gatherTable build gs t topTags walk = { rt := none, err := some e, topTags := topTags } := by
  simp only [gatherTable, hb]

theorem forall₂_map_self {α β : Type} (R : α → β → Prop) (f : α → β) (l : List α)
    (h : ∀ a ∈ l, R a (f a)) : List.Forall₂ R l (l.map f) := by
  induction l with
  | nil => exact List.Forall₂.nil
  | cons a l ih =>
    exact List.Forall₂.cons (h a (List.mem_cons_self a l))
      (ih (fun b hb => h b (List.mem_cons_of_mem a hb)))

end Snmp

namespace Snmp

/-! ## Properties of `gatherTable` -/

/-- The two scenarios of the specification, run through the worker: the
top-level gather gives `region=us`, the table `ifTable` inherits `region`; its
first row was built with `region=eu`, its second row without tags. Both
emitted rows carry `region=us` and `agent_host=10.0.0.1`. -/
theorem scenario_region_inherited :
    (gatherConn buildRegion "snmp" [] [ifTable] idleWorker connA).results[1]?
      = some { Err := none,
               Result := some
                 { Name := "ifTable",
                   Rows := [{ Tags := tagsOf [("agent_host", "10.0.0.1"), ("region", "us")],
                              Fields := [("ifDescr", "eth0")] },
                            { Tags := tagsOf [("agent_host", "10.0.0.1"), ("region", "us")],
                              Fields := [("ifDescr", "lo")] }] } } :=
  rfl

/-- C1: when the builder succeeds, `gatherTable` returns a table (with as many
rows as the builder produced) and every row of it has an `agent_host` key in
its tag mapping, whatever the connection, table definition, `topTags` and pass
flag are. -/
theorem gatherTable_rows_have_agent_host (build : Builder) (gs : snmpConnection)
    (t : Table) (topTags : TagMap) (walk : Bool) (rt0 : RTable)
    (hb : build gs t walk = Except.ok rt0) :
    ∃ rt, (gatherTable build gs t topTags walk).rt = some rt ∧
      (gatherTable build gs t topTags walk).err = none ∧
      rt.Rows.length = rt0.Rows.length ∧
      ∀ tr ∈ rt.Rows, (tr.Tags.lookup "agent_host").isSome = true := by
  rw [gatherTable_ok build gs t topTags walk rt0 hb]
  refine ⟨_, rfl, rfl, by simp, ?_⟩
  intro tr htr
  obtain ⟨tr0, _, rfl⟩ := List.mem_map.mp htr
  cases walk
  · rw [gatherRow_tags_top]
    exact isSome_lookup_defaultAgentHost gs _
  · rw [gatherRow_tags_walk]
    exact isSome_lookup_defaultAgentHost gs _

/-- Witness of C1 on a real-table pass whose second row has no tag at all. -/
theorem gatherTable_rows_have_agent_host_witness :
    ∃ rt0, buildRegion connA ifTable true = Except.ok rt0 ∧
      ∃ rt, (gatherTable buildRegion connA ifTable (tagsOf [("region", "us")]) true).rt = some rt ∧
        (gatherTable buildRegion connA ifTable (tagsOf [("region", "us")]) true).err = none ∧
        rt.Rows.length = rt0.Rows.length ∧
        ∀ tr ∈ rt.Rows, (tr.Tags.lookup "agent_host").isSome = true :=
  ⟨_, rfl, gatherTable_rows_have_agent_host buildRegion connA ifTable
    (tagsOf [("region", "us")]) true _ rfl⟩

/-- C2: in a real-table pass whose builder succeeds, for every key `k` of
`InheritTags` that `topTags` maps to `v`, every row of the returned table has
tag `k` equal to `v`, also a row to which the builder gave another value for
`k`. -/
theorem gatherTable_inherited_value_overrides (build : Builder) (gs : snmpConnection)
    (t : Table) (topTags : TagMap) (rt0 : RTable) (k v : String)
    (hb : build gs t true = Except.ok rt0)
    (hk : k ∈ t.InheritTags) (hv : topTags.lookup k = some v) :
    ∃ rt, (gatherTable build gs t topTags true).rt = some rt ∧
      rt.Rows.length = rt0.Rows.length ∧
      ∀ tr ∈ rt.Rows, tr.Tags.lookup k = some v := by
  rw [gatherTable_ok build gs t topTags true rt0 hb]
  refine ⟨_, rfl, by simp, ?_⟩
  intro tr htr
  obtain ⟨tr0, _, rfl⟩ := List.mem_map.mp htr
  have hinh := lookup_inheritTags_of_mem topTags k v hv t.InheritTags tr0.Tags hk
  by_cases hah : k = "agent_host"
  · subst hah
    rw [gatherRow_tags_walk, lookup_defaultAgentHost_self, hinh]
  · rw [gatherRow_tags_walk, lookup_defaultAgentHost_ne gs _ k hah, hinh]

/-- Witness of C2: the first row built for `ifTable` carries `region=eu`, the
inherited value is `us`. -/
theorem gatherTable_inherited_value_overrides_witness :
    ∃ rt0, buildRegion connA ifTable true = Except.ok rt0 ∧
      (∃ tr0 ∈ rt0.Rows, tr0.Tags.lookup "region" = some "eu") ∧
      "region" ∈ ifTable.InheritTags ∧
      (tagsOf [("region", "us")]).lookup "region" = some "us" ∧
      ∃ rt, (gatherTable buildRegion connA ifTable (tagsOf [("region", "us")]) true).rt = some rt ∧
        rt.Rows.length = rt0.Rows.length ∧
        ∀ tr ∈ rt.Rows, tr.Tags.lookup "region" = some "us" :=
  ⟨_, rfl, ⟨_, List.mem_cons_self _ _, by decide⟩, by decide, by decide,
    gatherTable_inherited_value_overrides buildRegion connA ifTable
      (tagsOf [("region", "us")]) _ "region" "us" rfl (by decide) (by decide)⟩

/-- C3, refuted as stated: the top-level gather of `connA` produces `site=a`,
the table `ifTable` has a nonempty `InheritTags` that does not list `site`,
and the second row built for `ifTable` has no `site` tag of its own; the row
the worker emits for it does not carry `site=a`. -/
theorem top_tag_outside_InheritTags_not_inherited :
    ifTable.InheritTags ≠ [] ∧
    (gatherTable buildRegion connA { Name := "snmp", Fields := [] } ∅ false).topTags.lookup "site"
      = some "a" ∧
    ∃ rt0 rt tr0 tr,
      buildRegion connA ifTable true = Except.ok rt0 ∧
      (gatherConn buildRegion "snmp" [] [ifTable] { jobs := [], results := [], wg := 1 }
          connA).results[1]? = some { Err := none, Result := some rt } ∧
      (gatherTable buildRegion connA ifTable
          (gatherTable buildRegion connA { Name := "snmp", Fields := [] } ∅ false).topTags
          true).rt = some rt ∧
      rt0.Rows[1]? = some tr0 ∧ rt.Rows[1]? = some tr ∧
      ¬ (tr.Tags.lookup "site" = some "a" ∨
          ((tr0.Tags.lookup "site").isSome = true ∧ "site" ∉ ifTable.InheritTags)) :=
  ⟨by decide, by decide, _, _, _, _, rfl, rfl, rfl, rfl, rfl, by decide⟩

/-- C3, amended: with `topTags` the map left by the top-level gather of the
connection (started from a fresh empty map), if that map has `k = v` and the
builder succeeds for the table `T`, then `gatherTable` returns a table for `T`
in which every row carries `k = v` when `k` is listed in `InheritTags`; when `k`
is not listed (and is not `agent_host`) every row keeps for `k` the entry the
builder gave it. -/
theorem worker_inherits_listed_top_tags (build : Builder) (conn : snmpConnection)
    (name : String) (fields : List Field) (T : Table) (rt0 : RTable) (k v : String)
    (hb : build conn T true = Except.ok rt0)
    (hv : (gatherTable build conn { Name := name, Fields := fields } ∅ false).topTags.lookup k
      = some v) :
    ∃ rt, (gatherTable build conn T
        (gatherTable build conn { Name := name, Fields := fields } ∅ false).topTags true).rt
        = some rt ∧
      (k ∈ T.InheritTags → ∀ tr ∈ rt.Rows, tr.Tags.lookup k = some v) ∧
      (k ∉ T.InheritTags → k ≠ "agent_host" →
        List.Forall₂ (fun tr0 tr => tr.Tags.lookup k = tr0.Tags.lookup k) rt0.Rows rt.Rows) := by
  rw [gatherTable_ok build conn T _ true rt0 hb]
  refine ⟨_, rfl, ?_, ?_⟩
  · intro hk tr htr
    obtain ⟨tr0, _, rfl⟩ := List.mem_map.mp htr
    have hinh := lookup_inheritTags_of_mem _ k v hv T.InheritTags tr0.Tags hk
    by_cases hah : k = "agent_host"
    · subst hah
      rw [gatherRow_tags_walk, lookup_defaultAgentHost_self, hinh]
    · rw [gatherRow_tags_walk, lookup_defaultAgentHost_ne conn _ k hah, hinh]
  · intro hk hah
    apply forall₂_map_self
    intro tr0 _
    rw [gatherRow_tags_walk, lookup_defaultAgentHost_ne conn _ k hah,
      lookup_inheritTags_of_not_mem _ k T.InheritTags tr0.Tags hk]

/-- Witness of amended C3: `region=us` comes from the top-level gather and is
listed in `InheritTags` of `ifTable`. -/
theorem worker_inherits_listed_top_tags_witness :
    ∃ rt0, buildRegion connA ifTable true = Except.ok rt0 ∧
      (gatherTable buildRegion connA { Name := "snmp", Fields := [] } ∅ false).topTags.lookup
        "region" = some "us" ∧
      ∃ rt, (gatherTable buildRegion connA ifTable
          (gatherTable buildRegion connA { Name := "snmp", Fields := [] } ∅ false).topTags
          true).rt = some rt ∧
        ("region" ∈ ifTable.InheritTags → ∀ tr ∈ rt.Rows, tr.Tags.lookup "region" = some "us") ∧
        ("region" ∉ ifTable.InheritTags → "region" ≠ "agent_host" →
          List.Forall₂ (fun tr0 tr => tr.Tags.lookup "region" = tr0.Tags.lookup "region")
            rt0.Rows rt.Rows) :=
  ⟨_, rfl, by decide,
    worker_inherits_listed_top_tags buildRegion connA "snmp" [] ifTable _ "region" "us" rfl
      (by decide)⟩

/-- C4, refuted as stated: the builder itself tags the row with
`agent_host = 10.0.0.1`, the host of the connection; the returned row has
`agent_host` equal to the host although an intrinsic tag supplied it. -/
theorem agent_host_equals_host_although_supplied :
    ∃ tr0 tr,
      buildHostTag connA topTable false = Except.ok { Name := "snmp", Rows := [tr0] } ∧
      (gatherTable buildHostTag connA topTable ∅ false).rt
        = some { Name := "snmp", Rows := [tr] } ∧
      ¬ (tr.Tags.lookup "agent_host" = some connA.Host ↔
          suppliedAgentHost topTable ∅ false tr0 = none) :=
  ⟨_, _, rfl, rfl, by decide⟩

/-- C4, amended: when the builder succeeds, every returned row has an
`agent_host` tag; its value is the supplied one (inherited or intrinsic) when
there is one and the host of the connection otherwise, so it equals the host
exactly when nothing supplied `agent_host` or the supplied value is itself
the host. -/
theorem gatherTable_agent_host_value (build : Builder) (gs : snmpConnection)
    (t : Table) (topTags : TagMap) (walk : Bool) (rt0 : RTable)
    (hb : build gs t walk = Except.ok rt0) :
    ∃ rt, (gatherTable build gs t topTags walk).rt = some rt ∧
      List.Forall₂
        (fun tr0 tr =>
          tr.Tags.lookup "agent_host"
              = some ((suppliedAgentHost t topTags walk tr0).getD gs.Host) ∧
          (tr.Tags.lookup "agent_host" = some gs.Host ↔
            (suppliedAgentHost t topTags walk tr0 = none ∨
              suppliedAgentHost t topTags walk tr0 = some gs.Host)))
        rt0.Rows rt.Rows := by
  rw [gatherTable_ok build gs t topTags walk rt0 hb]
  refine ⟨_, rfl, ?_⟩
  apply forall₂_map_self
  intro tr0 _
  have hval : (gatherRow gs t walk topTags tr0).2.Tags.lookup "agent_host"
      = some ((suppliedAgentHost t topTags walk tr0).getD gs.Host) := by
    cases walk with
    | false =>
      rw [gatherRow_tags_top, lookup_defaultAgentHost_self]
      simp only [suppliedAgentHost, Bool.false_eq_true, false_and, if_false]
      cases tr0.Tags.lookup "agent_host" <;> rfl
    | true =>
      rw [gatherRow_tags_walk, lookup_defaultAgentHost_self]
      by_cases hmem : "agent_host" ∈ t.InheritTags
      · cases htop : topTags.lookup "agent_host" with
        | none =>
          rw [lookup_inheritTags_of_none topTags _ htop]
          simp only [suppliedAgentHost, htop, Option.isSome_none, Bool.false_eq_true,
            and_false, if_false]
          cases tr0.Tags.lookup "agent_host" <;> rfl
        | some v =>
          rw [lookup_inheritTags_of_mem topTags _ v htop _ _ hmem]
          simp [suppliedAgentHost, htop, hmem]
      · rw [lookup_inheritTags_of_not_mem topTags _ _ _ hmem]
        simp only [suppliedAgentHost, hmem, false_and, and_false, if_false]
        cases tr0.Tags.lookup "agent_host" <;> rfl
  refine ⟨hval, ?_⟩
  rw [hval]
  cases suppliedAgentHost t topTags walk tr0 with
  | none => simp
  | some v => simp

/-- Witness of amended C4 on the real-table pass of `ifTable`. -/
theorem gatherTable_agent_host_value_witness :
    ∃ rt0, buildRegion connA ifTable true = Except.ok rt0 ∧
      ∃ rt, (gatherTable buildRegion connA ifTable (tagsOf [("region", "us")]) true).rt = some rt ∧
        List.Forall₂
          (fun tr0 tr =>
            tr.Tags.lookup "agent_host"
                = some ((suppliedAgentHost ifTable (tagsOf [("region", "us")]) true tr0).getD
                    connA.Host) ∧
            (tr.Tags.lookup "agent_host" = some connA.Host ↔
              (suppliedAgentHost ifTable (tagsOf [("region", "us")]) true tr0 = none ∨
                suppliedAgentHost ifTable (tagsOf [("region", "us")]) true tr0
                  = some connA.Host)))
          rt0.Rows rt.Rows :=
  ⟨_, rfl, gatherTable_agent_host_value buildRegion connA ifTable
    (tagsOf [("region", "us")]) true _ rfl⟩

/-- C5: when the builder succeeds, for every row, with `mid` the row's tags
after the pass-specific step (the builder's tags in a top-level pass, the tags
after inheritance in a real-table pass): if `mid` has an `agent_host` tag the
returned row's tags are `mid` unchanged, and only if `mid` has none the
returned row's tags are `mid` with `agent_host` set to the host of the
connection. -/
theorem gatherTable_agent_host_only_when_absent (build : Builder) (gs : snmpConnection)
    (t : Table) (topTags : TagMap) (walk : Bool) (rt0 : RTable)
    (hb : build gs t walk = Except.ok rt0) :
    ∃ rt, (gatherTable build gs t topTags walk).rt = some rt ∧
      List.Forall₂
        (fun tr0 tr =>
          (∀ v, (if walk = true then inheritTags t.InheritTags topTags tr0.Tags
                  else tr0.Tags).lookup "agent_host" = some v →
            tr.Tags = (if walk = true then inheritTags t.InheritTags topTags tr0.Tags
                        else tr0.Tags) ∧
            tr.Tags.lookup "agent_host" = some v) ∧
          ((if walk = true then inheritTags t.InheritTags topTags tr0.Tags
              else tr0.Tags).lookup "agent_host" = none →
            tr.Tags = (if walk = true then inheritTags t.InheritTags topTags tr0.Tags
                        else tr0.Tags).insert "agent_host" gs.Host ∧
            tr.Tags.lookup "agent_host" = some gs.Host))
        rt0.Rows rt.Rows := by
  rw [gatherTable_ok build gs t topTags walk rt0 hb]
  refine ⟨_, rfl, ?_⟩
  apply forall₂_map_self
  intro tr0 _
  have htags : (gatherRow gs t walk topTags tr0).2.Tags
      = defaultAgentHost gs (if walk = true then inheritTags t.InheritTags topTags tr0.Tags
          else tr0.Tags) := by
    cases walk <;> rfl
  rw [htags]
  constructor
  · intro v hv
    have : defaultAgentHost gs (if walk = true then inheritTags t.InheritTags topTags tr0.Tags
        else tr0.Tags) = (if walk = true then inheritTags t.InheritTags topTags tr0.Tags
        else tr0.Tags) := by
      unfold defaultAgentHost
      rw [hv]
    rw [this]
    exact ⟨rfl, hv⟩
  · intro hnone
    have : defaultAgentHost gs (if walk = true then inheritTags t.InheritTags topTags tr0.Tags
        else tr0.Tags) = (if walk = true then inheritTags t.InheritTags topTags tr0.Tags
        else tr0.Tags).insert "agent_host" gs.Host := by
      unfold defaultAgentHost
      rw [hnone]
    rw [this]
    exact ⟨rfl, AList.lookup_insert _⟩

/-- Witness of C5 on the top-level pass of `buildHostTag`, whose row already
has an `agent_host` tag. -/
theorem gatherTable_agent_host_only_when_absent_witness :
    ∃ rt0, buildHostTag connA topTable false = Except.ok rt0 ∧
      ∃ rt, (gatherTable buildHostTag connA topTable ∅ false).rt = some rt ∧
        List.Forall₂
          (fun tr0 tr =>
            (∀ v, (if false = true then inheritTags topTable.InheritTags ∅ tr0.Tags
                    else tr0.Tags).lookup "agent_host" = some v →
              tr.Tags = (if false = true then inheritTags topTable.InheritTags ∅ tr0.Tags
                          else tr0.Tags) ∧
              tr.Tags.lookup "agent_host" = some v) ∧
            ((if false = true then inheritTags topTable.InheritTags ∅ tr0.Tags
                else tr0.Tags).lookup "agent_host" = none →
              tr.Tags = (if false = true then inheritTags topTable.InheritTags ∅ tr0.Tags
                          else tr0.Tags).insert "agent_host" connA.Host ∧
              tr.Tags.lookup "agent_host" = some connA.Host))
          rt0.Rows rt.Rows :=
  ⟨_, rfl, gatherTable_agent_host_only_when_absent buildHostTag connA topTable ∅ false _ rfl⟩

/-- C6: if the builder returns the error `e`, `gatherTable` returns no table
and exactly the error `e`, and leaves `topTags` as it was, for either value of
the pass flag. -/
theorem gatherTable_builder_error (build : Builder) (gs : snmpConnection) (t : Table)
    (topTags : TagMap) (walk : Bool) (e : GoError)
    (hb : build gs t walk = Except.error e) :
    (gatherTable build gs t topTags walk).rt = none ∧
      (gatherTable build gs t topTags walk).err = some e ∧
      (gatherTable build gs t topTags walk).topTags = topTags := by
  rw [gatherTable_error build gs t topTags walk e hb]
  exact ⟨rfl, rfl, rfl⟩

/-- Witness of C6 with a builder that fails, on a top-level pass. -/
theorem gatherTable_builder_error_witness :
    buildFail connA topTable false = Except.error (GoError.base "timeout on snmp") ∧
      (gatherTable buildFail connA topTable (tagsOf [("region", "us")]) false).rt = none ∧
      (gatherTable buildFail connA topTable (tagsOf [("region", "us")]) false).err
        = some (GoError.base "timeout on snmp") ∧
      (gatherTable buildFail connA topTable (tagsOf [("region", "us")]) false).topTags
        = tagsOf [("region", "us")] :=
  ⟨rfl, gatherTable_builder_error buildFail connA topTable (tagsOf [("region", "us")])
    false (GoError.base "timeout on snmp") rfl⟩

/-- C7: in a top-level pass whose builder succeeds with rows `r1..rn`,
afterwards `topTags` maps each key `k` to the value `k` has in the last row
whose builder-produced tags contain `k`; a key that occurs in no row keeps the
entry (or absence) it had in `topTags` before the call. -/
theorem gatherTable_topTags_last_row_wins (build : Builder) (gs : snmpConnection)
    (t : Table) (topTags : TagMap) (rt0 : RTable) (k : String)
    (hb : build gs t false = Except.ok rt0) :
    (gatherTable build gs t topTags false).topTags.lookup k
      = (match lastRowValue rt0.Rows k with
        | some v => some v
        | none => topTags.lookup k) := by
  rw [gatherTable_ok build gs t topTags false rt0 hb]
  show ((gatherRows gs t false topTags rt0.Rows).1).lookup k = _
  rw [gatherRows_fst_top, lookup_foldl_addTopTags]

/-- Witness of C7: two rows carry `region`, the second one (`eu`) wins. -/
theorem gatherTable_topTags_last_row_wins_witness :
    ∃ rt0, buildTwoRows connA topTable false = Except.ok rt0 ∧
      lastRowValue rt0.Rows "region" = some "eu" ∧
      (gatherTable buildTwoRows connA topTable (tagsOf [("region", "old")]) false).topTags.lookup
          "region"
        = (match lastRowValue rt0.Rows "region" with
          | some v => some v
          | none => (tagsOf [("region", "old")]).lookup "region") :=
  ⟨_, rfl, by decide,
    gatherTable_topTags_last_row_wins buildTwoRows connA topTable (tagsOf [("region", "old")])
      _ "region" rfl⟩

/-- C8: in a real-table pass whose builder succeeds, for every key `k` that is
neither in `InheritTags` nor `agent_host`, every returned row has for `k` the
entry (value or absence) the builder produced for that row. -/
theorem gatherTable_unlisted_tags_untouched (build : Builder) (gs : snmpConnection)
    (t : Table) (topTags : TagMap) (rt0 : RTable) (k : String)
    (hb : build gs t true = Except.ok rt0)
    (hk : k ∉ t.InheritTags) (hah : k ≠ "agent_host") :
    ∃ rt, (gatherTable build gs t topTags true).rt = some rt ∧
      List.Forall₂ (fun tr0 tr => tr.Tags.lookup k = tr0.Tags.lookup k) rt0.Rows rt.Rows := by
  rw [gatherTable_ok build gs t topTags true rt0 hb]
  refine ⟨_, rfl, ?_⟩
  apply forall₂_map_self
  intro tr0 _
  rw [gatherRow_tags_walk, lookup_defaultAgentHost_ne gs _ k hah,
    lookup_inheritTags_of_not_mem topTags k t.InheritTags tr0.Tags hk]

/-- Witness of C8: `site` is in `topTags` but not in `InheritTags` of `ifTable`. -/
theorem gatherTable_unlisted_tags_untouched_witness :
    ∃ rt0, buildRegion connA ifTable true = Except.ok rt0 ∧
      "site" ∉ ifTable.InheritTags ∧ "site" ≠ "agent_host" ∧
      ∃ rt, (gatherTable buildRegion connA ifTable
          (tagsOf [("region", "us"), ("site", "a")]) true).rt = some rt ∧
        List.Forall₂ (fun tr0 tr => tr.Tags.lookup "site" = tr0.Tags.lookup "site")
          rt0.Rows rt.Rows :=
  ⟨_, rfl, by decide, by decide,
    gatherTable_unlisted_tags_untouched buildRegion connA ifTable
      (tagsOf [("region", "us"), ("site", "a")]) _ "site" rfl (by decide) (by decide)⟩

/-! ## The worker -/

theorem gatherTable_topTags_walk (build : Builder) (gs : snmpConnection) (t : Table)
    (topTags : TagMap) : (gatherTable build gs t topTags true).topTags = topTags := by
  cases hb : build gs t true with
  | error e => rw [gatherTable_error build gs t topTags true e hb]
  | ok rt0 =>
    rw [gatherTable_ok build gs t topTags true rt0 hb]
    exact gatherRows_fst_walk gs t rt0.Rows topTags

theorem gatherRealTable_eq (build : Builder) (conn : snmpConnection) (w : snmpWorker)
    (topTags : TagMap) (t : Table) :
    gatherRealTable build conn (w, topTags) t
      = ({ w with results := w.results ++
            [sentFor (gatherTable build conn t topTags true)
              ("agent: " ++ conn.Host ++ ": gathering table " ++ t.Name)] }, topTags) := by
  have htt := gatherTable_topTags_walk build conn t topTags
  unfold gatherRealTable sentFor
  simp only [htt]
  cases (gatherTable build conn t topTags true).err <;> rfl

theorem foldl_gatherRealTable (build : Builder) (conn : snmpConnection) (topTags : TagMap) :
    ∀ (tables : List Table) (w : snmpWorker),
      tables.foldl (gatherRealTable build conn) (w, topTags)
        = ({ w with results := w.results ++
              tables.map (fun t => sentFor (gatherTable build conn t topTags true)
                ("agent: " ++ conn.Host ++ ": gathering table " ++ t.Name)) }, topTags) := by
  intro tables
  induction tables with
  | nil => intro w; simp
  | cons t rest ih =>
    intro w
    rw [List.foldl_cons, gatherRealTable_eq, ih]
    simp

theorem gatherConn_results (build : Builder) (name : String) (fields : List Field)
    (tables : List Table) (w : snmpWorker) (conn : snmpConnection) :
    (gatherConn build name fields tables w conn).results
      = w.results ++
        (sentFor (gatherTable build conn { Name := name, Fields := fields } ∅ false)
            ("agent " ++ conn.Host) ::
          tables.map (fun t =>
            sentFor (gatherTable build conn t
                (gatherTable build conn { Name := name, Fields := fields } ∅ false).topTags true)
              ("agent: " ++ conn.Host ++ ": gathering table " ++ t.Name))) := by
  unfold gatherConn
  simp only [foldl_gatherRealTable]
  cases h : (gatherTable build conn { Name := name, Fields := fields } ∅ false).err <;>
    simp [sentFor, h, snmpWorker.registerError, snmpWorker.registerData]

theorem isOutcomeOf_sentFor (build : Builder) (gs : snmpConnection) (t : Table)
    (topTags : TagMap) (walk : Bool) (context : String) :
    isOutcomeOf (build gs t walk) (gatherTable build gs t topTags walk)
      (sentFor (gatherTable build gs t topTags walk) context) := by
  cases hb : build gs t walk with
  | error e =>
    rw [gatherTable_error build gs t topTags walk e hb]
    refine ⟨⟨fun _ => ⟨e, rfl⟩, fun _ => rfl⟩, fun _ => rfl, fun h => ?_⟩
    exact absurd h (by simp [sentFor, workerResult.IsError])
  | ok rt0 =>
    rw [gatherTable_ok build gs t topTags walk rt0 hb]
    refine ⟨⟨fun h => ?_, fun h => ?_⟩, fun h => ?_, fun _ => ⟨rfl, rfl, rfl⟩⟩
    · exact absurd h (by simp [sentFor, workerResult.IsError])
    · obtain ⟨e, he⟩ := h
      cases he
    · exact absurd h (by simp [sentFor, workerResult.IsError])

theorem foldl_gatherConn_results (build : Builder) (name : String) (fields : List Field)
    (tables : List Table) :
    ∀ (jobs : List snmpConnection) (w : snmpWorker),
      (jobs.foldl (gatherConn build name fields tables) w).results
        = w.results ++
          (jobs.map (fun conn =>
            (gatherConn build name fields tables idleWorker conn).results)).flatten := by
  intro jobs
  induction jobs with
  | nil => intro w; simp
  | cons conn rest ih =>
    intro w
    rw [List.foldl_cons, ih, gatherConn_results build name fields tables w conn,
      List.map_cons, List.flatten_cons,
      gatherConn_results build name fields tables idleWorker conn]
    simp [idleWorker]

theorem gatherConn_results_length (build : Builder) (name : String) (fields : List Field)
    (tables : List Table) (w : snmpWorker) (conn : snmpConnection) :
    (gatherConn build name fields tables w conn).results.length
      = w.results.length + (1 + tables.length) := by
  rw [gatherConn_results]
  simp
  omega

theorem length_flatten_const {α : Type} (n : Nat) :
    ∀ (ls : List (List α)), (∀ l ∈ ls, l.length = n) → ls.flatten.length = ls.length * n := by
  intro ls
  induction ls with
  | nil => intro _; simp
  | cons l rest ih =>
    intro h
    rw [List.flatten_cons, List.length_append, List.length_cons,
      ih (fun x hx => h x (List.mem_cons_of_mem l hx)), h l (List.mem_cons_self l rest)]
    ring

/-- C9: for a connection and tables `t1..tm`, the worker appends exactly
`1 + m` outcomes to its result queue: first the outcome of the top-level gather
(table of the given name and fields without `InheritTags`, flag false, fresh
empty `topTags`), then, in the order of the tables, the outcome of
`gatherTable` for each table (flag true, same connection, the `topTags` left by
the top-level gather); each outcome is an error outcome exactly when the
builder call failed and a success outcome carrying the returned table
otherwise. -/
theorem gatherConn_emits_outcomes_in_order (build : Builder) (name : String)
    (fields : List Field) (tables : List Table) (w : snmpWorker) (conn : snmpConnection) :
    ∃ outs : List workerResult,
      (gatherConn build name fields tables w conn).results = w.results ++ outs ∧
      outs.length = 1 + tables.length ∧
      (∃ o, outs[0]? = some o ∧
        isOutcomeOf (build conn { Name := name, Fields := fields, InheritTags := [] } false)
          (gatherTable build conn { Name := name, Fields := fields, InheritTags := [] } ∅ false)
          o) ∧
      ∀ (i : Nat) (t : Table), tables[i]? = some t →
        ∃ o, outs[i + 1]? = some o ∧
          isOutcomeOf (build conn t true)
            (gatherTable build conn t
              (gatherTable build conn { Name := name, Fields := fields, InheritTags := [] }
                ∅ false).topTags true)
            o := by
  refine ⟨_, gatherConn_results build name fields tables w conn, ?_, ?_, ?_⟩
  · simp
    omega
  · exact ⟨_, List.getElem?_cons_zero, isOutcomeOf_sentFor build conn _ ∅ false _⟩
  · intro i t hi
    refine ⟨sentFor (gatherTable build conn t
      (gatherTable build conn { Name := name, Fields := fields } ∅ false).topTags true)
      ("agent: " ++ conn.Host ++ ": gathering table " ++ t.Name), ?_,
      isOutcomeOf_sentFor build conn t _ true _⟩
    rw [List.getElem?_cons_succ, List.getElem?_map, hi]
    rfl

/-- Witness of C9: the builder fails on the top-level table and on `ifTable`
and succeeds on `cpuTable`; the three outcomes are error, error, success. -/
theorem gatherConn_emits_outcomes_in_order_witness :
    (gatherConn buildPartial "snmp" [] [ifTable, cpuTable] idleWorker connA).results.map
        workerResult.IsError = [true, true, false] ∧
      ∃ outs : List workerResult,
        (gatherConn buildPartial "snmp" [] [ifTable, cpuTable] idleWorker connA).results
          = idleWorker.results ++ outs ∧
        outs.length = 1 + [ifTable, cpuTable].length ∧
        (∃ o, outs[0]? = some o ∧
          isOutcomeOf (buildPartial connA { Name := "snmp", Fields := [], InheritTags := [] } false)
            (gatherTable buildPartial connA { Name := "snmp", Fields := [], InheritTags := [] }
              ∅ false) o) ∧
        ∀ (i : Nat) (t : Table), [ifTable, cpuTable][i]? = some t →
          ∃ o, outs[i + 1]? = some o ∧
            isOutcomeOf (buildPartial connA t true)
              (gatherTable buildPartial connA t
                (gatherTable buildPartial connA
                  { Name := "snmp", Fields := [], InheritTags := [] } ∅ false).topTags true)
              o :=
  ⟨by decide,
    gatherConn_emits_outcomes_in_order buildPartial "snmp" [] [ifTable, cpuTable] idleWorker
      connA⟩

/-- C10: whatever the builder does (it may fail on any table of any
connection), the worker's result queue after `Gather` is the queue before it
followed, for each connection of the job queue in order, by the outcomes of
that connection processed alone; each connection contributes `1 + m`
outcomes for `m` configured tables, so the number of outcomes is the same for
any two builders. -/
theorem Gather_not_stopped_by_failures (build build1 : Builder) (w : snmpWorker)
    (name : String) (fields : List Field) (tables : List Table) :
    (w.Gather build name fields tables).results
        = w.results ++
          (w.jobs.map (fun conn =>
            (gatherConn build name fields tables idleWorker conn).results)).flatten ∧
      (∀ conn, (gatherConn build name fields tables idleWorker conn).results.length
        = 1 + tables.length) ∧
      (w.Gather build name fields tables).results.length
        = w.results.length + w.jobs.length * (1 + tables.length) ∧
      (w.Gather build name fields tables).results.length
        = (w.Gather build1 name fields tables).results.length := by
  have hlen : ∀ (b : Builder) (conn : snmpConnection),
      (gatherConn b name fields tables idleWorker conn).results.length
        = 1 + tables.length := by
    intro b conn
    rw [gatherConn_results_length]
    simp [idleWorker]
  have hres : ∀ b : Builder, (w.Gather b name fields tables).results
      = w.results ++ (w.jobs.map (fun conn =>
          (gatherConn b name fields tables idleWorker conn).results)).flatten := by
    intro b
    show (w.jobs.foldl (gatherConn b name fields tables) { w with jobs := [] }).results = _
    rw [foldl_gatherConn_results]
  have htotal : ∀ b : Builder, (w.Gather b name fields tables).results.length
      = w.results.length + w.jobs.length * (1 + tables.length) := by
    intro b
    rw [hres b, List.length_append, length_flatten_const (1 + tables.length)]
    · simp
    · intro l hl
      obtain ⟨conn, _, rfl⟩ := List.mem_map.mp hl
      exact hlen b conn
  exact ⟨hres build, hlen build, htotal build, by rw [htotal build, htotal build1]⟩

/-- Witness of C10: two connections, two tables, a builder that fails on the
top-level table and on `ifTable` and a builder that never fails: six outcomes
in both cases, the failures in the first case being followed by the success of
`cpuTable` and by the outcomes of the second connection. -/
theorem Gather_not_stopped_by_failures_witness :
    (({ jobs := [connA, connB], results := [], wg := 1 } : snmpWorker).Gather buildPartial
        "snmp" [] [ifTable, cpuTable]).results.map workerResult.IsError
      = [true, true, false, true, true, false] ∧
    (({ jobs := [connA, connB], results := [], wg := 1 } : snmpWorker).Gather buildPartial
        "snmp" [] [ifTable, cpuTable]).results.length
      = (({ jobs := [connA, connB], results := [], wg := 1 } : snmpWorker).Gather buildRegion
        "snmp" [] [ifTable, cpuTable]).results.length :=
  ⟨by decide,
    (Gather_not_stopped_by_failures buildPartial buildRegion
      { jobs := [connA, connB], results := [], wg := 1 } "snmp" [] [ifTable, cpuTable]).2.2.2⟩

/-! ## Failures and the shape of outcomes -/

theorem sentFor_error (build : Builder) (gs : snmpConnection) (t : Table)
    (topTags : TagMap) (walk : Bool) (context : String) (e : GoError)
    (hb : build gs t walk = Except.error e) :
    sentFor (gatherTable build gs t topTags walk) context
      = { Err := some (Errorf e context), Result := none } := by
  rw [gatherTable_error build gs t topTags walk e hb]
  rfl

theorem sentFor_ok (build : Builder) (gs : snmpConnection) (t : Table)
    (topTags : TagMap) (walk : Bool) (context : String) (rt0 : RTable)
    (hb : build gs t walk = Except.ok rt0) :
    sentFor (gatherTable build gs t topTags walk) context
      = { Err := none,
          Result := some { rt0 with
            Rows := rt0.Rows.map (fun tr => (gatherRow gs t walk topTags tr).2) } } := by
  rw [gatherTable_ok build gs t topTags walk rt0 hb]
  rfl

theorem isError_sentFor (build : Builder) (gs : snmpConnection) (t : Table)
    (topTags : TagMap) (walk : Bool) (context : String) :
    (sentFor (gatherTable build gs t topTags walk) context).IsError
      = builderFailed (build gs t walk) := by
  cases hb : build gs t walk with
  | error e => rw [sentFor_error build gs t topTags walk context e hb]; rfl
  | ok rt0 => rw [sentFor_ok build gs t topTags walk context rt0 hb]; rfl

theorem exactlyOneVariant_sentFor (build : Builder) (gs : snmpConnection) (t : Table)
    (topTags : TagMap) (walk : Bool) (context : String) :
    exactlyOneVariant (sentFor (gatherTable build gs t topTags walk) context) := by
  cases hb : build gs t walk with
  | error e =>
    rw [sentFor_error build gs t topTags walk context e hb]
    exact Or.inl ⟨rfl, rfl, rfl⟩
  | ok rt0 =>
    rw [sentFor_ok build gs t topTags walk context rt0 hb]
    exact Or.inr ⟨rfl, rfl, rfl⟩

theorem mentionsHost_top (host : String) (e : GoError) :
    mentionsHost host (Errorf e ("agent " ++ host)) :=
  ⟨"agent ", "", e, by rw [String.append_empty]; rfl⟩

theorem mentionsHost_real (host name : String) (e : GoError) :
    mentionsHost host (Errorf e ("agent: " ++ host ++ ": gathering table " ++ name)) :=
  ⟨"agent: ", ": gathering table " ++ name, e, by rw [← String.append_assoc]; rfl⟩

theorem mem_gatherConn_results (build : Builder) (name : String) (fields : List Field)
    (tables : List Table) (conn : snmpConnection) (o : workerResult)
    (ho : o ∈ (gatherConn build name fields tables idleWorker conn).results) :
    (o = sentFor (gatherTable build conn { Name := name, Fields := fields } ∅ false)
          ("agent " ++ conn.Host)) ∨
      ∃ t ∈ tables, o = sentFor (gatherTable build conn t
          (gatherTable build conn { Name := name, Fields := fields } ∅ false).topTags true)
        ("agent: " ++ conn.Host ++ ": gathering table " ++ t.Name) := by
  rw [gatherConn_results] at ho
  simp only [idleWorker, List.nil_append, List.mem_cons, List.mem_map] at ho
  rcases ho with h | ⟨t, ht, rfl⟩
  · exact Or.inl h
  · exact Or.inr ⟨t, ht, rfl⟩

/-- C11, refuted as stated: the builder fails on the top-level table of the
connection `agentX` and also on its table `ifTable`; the worker emits two
error outcomes, and both reference `agentX`. -/
theorem top_level_failure_two_errors_reference_agent :
    buildFail connX { Name := "snmp", Fields := [] } false
        = Except.error (GoError.base "timeout on snmp") ∧
      (gatherConn buildFail "snmp" [] [ifTable] idleWorker connX).results
        = [{ Err := some (GoError.nested "agent agentX" (GoError.base "timeout on snmp")),
             Result := none },
           { Err := some (GoError.nested "agent: agentX: gathering table ifTable"
               (GoError.base "timeout on ifTable")),
             Result := none }] ∧
      mentionsHost "agentX" (GoError.nested "agent agentX" (GoError.base "timeout on snmp")) ∧
      mentionsHost "agentX" (GoError.nested "agent: agentX: gathering table ifTable"
        (GoError.base "timeout on ifTable")) ∧
      ((gatherConn buildFail "snmp" [] [ifTable] idleWorker connX).results.filter
        workerResult.IsError).length = 2 :=
  ⟨rfl, rfl, ⟨"agent ", "", _, rfl⟩, ⟨"agent: ", ": gathering table ifTable", _, rfl⟩, rfl⟩

/-- C11, amended: when the top-level builder call of a connection fails with
`e`, the worker emits `1 + m` outcomes for the connection; the first is the
one error outcome of the top-level gather, wrapping `e` with the context
`agent <host>`, which references the host; every configured table is still
gathered (with the empty `topTags`) and contributes its outcome in order; the
error outcomes are that one plus one for each table whose own builder call
fails, so there is exactly one when no table fails. -/
theorem top_level_failure_one_error_tables_attempted (build : Builder) (name : String)
    (fields : List Field) (tables : List Table) (w : snmpWorker) (conn : snmpConnection)
    (e : GoError)
    (hfail : build conn { Name := name, Fields := fields, InheritTags := [] } false
      = Except.error e) :
    ∃ outs : List workerResult,
      (gatherConn build name fields tables w conn).results = w.results ++ outs ∧
      outs.length = 1 + tables.length ∧
      outs[0]? = some { Err := some (Errorf e ("agent " ++ conn.Host)), Result := none } ∧
      mentionsHost conn.Host (Errorf e ("agent " ++ conn.Host)) ∧
      (∀ (i : Nat) (t : Table), tables[i]? = some t →
        ∃ o, outs[i + 1]? = some o ∧
          isOutcomeOf (build conn t true) (gatherTable build conn t ∅ true) o) ∧
      (outs.filter workerResult.IsError).length
        = 1 + (tables.filter (fun t => builderFailed (build conn t true))).length ∧
      ((∀ t ∈ tables, builderFailed (build conn t true) = false) →
        (outs.filter workerResult.IsError).length = 1) := by
  have htop := gatherTable_error build conn { Name := name, Fields := fields } ∅ false e hfail
  have hcount : ((sentFor (gatherTable build conn { Name := name, Fields := fields } ∅ false)
            ("agent " ++ conn.Host) ::
          tables.map (fun t =>
            sentFor (gatherTable build conn t
                (gatherTable build conn { Name := name, Fields := fields } ∅ false).topTags true)
              ("agent: " ++ conn.Host ++ ": gathering table " ++ t.Name))).filter
          workerResult.IsError).length
      = 1 + (tables.filter (fun t => builderFailed (build conn t true))).length := by
    have h0 : (sentFor (gatherTable build conn { Name := name, Fields := fields } ∅ false)
        ("agent " ++ conn.Host)).IsError = true := by
      rw [isError_sentFor, hfail]; rfl
    rw [List.filter_cons_of_pos h0, List.length_cons, List.filter_map, List.length_map]
    have hfun : (workerResult.IsError ∘ fun t =>
          sentFor (gatherTable build conn t
              (gatherTable build conn { Name := name, Fields := fields } ∅ false).topTags true)
            ("agent: " ++ conn.Host ++ ": gathering table " ++ t.Name))
        = fun t => builderFailed (build conn t true) := by
      funext t
      exact isError_sentFor build conn t _ true _
    rw [hfun]
    omega
  refine ⟨_, gatherConn_results build name fields tables w conn, ?_, ?_,
    mentionsHost_top conn.Host e, ?_, hcount, ?_⟩
  · simp
    omega
  · rw [List.getElem?_cons_zero, htop]
    rfl
  · intro i t hi
    refine ⟨sentFor (gatherTable build conn t ∅ true)
      ("agent: " ++ conn.Host ++ ": gathering table " ++ t.Name), ?_,
      isOutcomeOf_sentFor build conn t ∅ true _⟩
    rw [List.getElem?_cons_succ, List.getElem?_map, hi, htop]
    rfl
  · intro hall
    rw [hcount, List.filter_eq_nil_iff.mpr (fun t ht => by simp [hall t ht])]
    rfl

/-- Witness of amended C11: on `agentX` the builder fails on the top-level
table and on `ifTable` and succeeds on `cpuTable`. -/
theorem top_level_failure_one_error_tables_attempted_witness :
    buildPartial connX { Name := "snmp", Fields := [], InheritTags := [] } false
        = Except.error (GoError.base "timeout on snmp") ∧
      ∃ outs : List workerResult,
        (gatherConn buildPartial "snmp" [] [cpuTable, ifTable] idleWorker connX).results
          = idleWorker.results ++ outs ∧
        outs.length = 1 + [cpuTable, ifTable].length ∧
        outs[0]? = some { Err := some (Errorf (GoError.base "timeout on snmp")
                            ("agent " ++ connX.Host)),
                          Result := none } ∧
        mentionsHost connX.Host (Errorf (GoError.base "timeout on snmp")
          ("agent " ++ connX.Host)) ∧
        (∀ (i : Nat) (t : Table), [cpuTable, ifTable][i]? = some t →
          ∃ o, outs[i + 1]? = some o ∧
            isOutcomeOf (buildPartial connX t true) (gatherTable buildPartial connX t ∅ true) o) ∧
        (outs.filter workerResult.IsError).length
          = 1 + ([cpuTable, ifTable].filter
              (fun t => builderFailed (buildPartial connX t true))).length ∧
        ((∀ t ∈ [cpuTable, ifTable], builderFailed (buildPartial connX t true) = false) →
          (outs.filter workerResult.IsError).length = 1) :=
  ⟨rfl, top_level_failure_one_error_tables_attempted buildPartial "snmp" []
    [cpuTable, ifTable] idleWorker connX (GoError.base "timeout on snmp") rfl⟩

/-- C12: every outcome a worker sends during `Gather` has exactly one of its
two variants populated: either `Err` is set and `Result` is empty (`IsError`
true), or `Result` carries a table and `Err` is empty (`IsError` false). -/
theorem Gather_outcomes_exactly_one_variant (build : Builder) (w : snmpWorker)
    (name : String) (fields : List Field) (tables : List Table) :
    ∃ emitted : List workerResult,
      (w.Gather build name fields tables).results = w.results ++ emitted ∧
      ∀ o ∈ emitted, exactlyOneVariant o := by
  refine ⟨(w.jobs.map (fun conn =>
    (gatherConn build name fields tables idleWorker conn).results)).flatten, ?_, ?_⟩
  · show (w.jobs.foldl (gatherConn build name fields tables) { w with jobs := [] }).results = _
    rw [foldl_gatherConn_results]
  · intro o ho
    obtain ⟨l, hl, hol⟩ := List.mem_flatten.mp ho
    obtain ⟨conn, _, rfl⟩ := List.mem_map.mp hl
    rcases mem_gatherConn_results build name fields tables conn o hol with h | ⟨t, _, h⟩
    · rw [h]; exact exactlyOneVariant_sentFor build conn _ ∅ false _
    · rw [h]; exact exactlyOneVariant_sentFor build conn t _ true _

/-- Witness of C12: the six outcomes of two connections with a builder that
fails on some tables, listed by their populated variant. -/
theorem Gather_outcomes_exactly_one_variant_witness :
    (({ jobs := [connA, connB], results := [], wg := 1 } : snmpWorker).Gather buildPartial
        "snmp" [] [ifTable, cpuTable]).results.map
        (fun o => (o.Err.isSome, o.Result.isSome, o.IsError))
      = [(true, false, true), (true, false, true), (false, true, false),
         (true, false, true), (true, false, true), (false, true, false)] ∧
    ∃ emitted : List workerResult,
      (({ jobs := [connA, connB], results := [], wg := 1 } : snmpWorker).Gather buildPartial
        "snmp" [] [ifTable, cpuTable]).results
        = ({ jobs := [connA, connB], results := [], wg := 1 } : snmpWorker).results ++ emitted ∧
      ∀ o ∈ emitted, exactlyOneVariant o :=
  ⟨by decide, Gather_outcomes_exactly_one_variant buildPartial
    { jobs := [connA, connB], results := [], wg := 1 } "snmp" [] [ifTable, cpuTable]⟩

/-! ## Scope of `topTags` -/

theorem Gather_single_job (build : Builder) (name : String) (fields : List Field)
    (tables : List Table) (conn : snmpConnection) :
    (({ jobs := [conn], results := [], wg := 1 } : snmpWorker).Gather build name fields
        tables).results
      = (gatherConn build name fields tables idleWorker conn).results := rfl

/-- C14: `topTags` is scoped to one connection (each connection starts with a
fresh empty map), so for any sequence of connections processed by one worker
the outcomes sent are, connection after connection in job order, the outcomes
that a worker sends when it processes that connection alone. -/
theorem Gather_connections_processed_as_if_alone (build : Builder) (w : snmpWorker)
    (name : String) (fields : List Field) (tables : List Table) :
    (w.Gather build name fields tables).results
      = w.results ++
        (w.jobs.map (fun conn =>
          (({ jobs := [conn], results := [], wg := 1 } : snmpWorker).Gather build name fields
            tables).results)).flatten := by
  show (w.jobs.foldl (gatherConn build name fields tables) { w with jobs := [] }).results = _
  rw [foldl_gatherConn_results]
  simp only [Gather_single_job]

/-- Witness of C14: `connA` collects `region=us` at top level, `connB`
collects nothing; the row of `memTable` sent for `connB` after `connA` has no
`region` tag, as when `connB` is processed alone. -/
theorem Gather_connections_processed_as_if_alone_witness :
    (({ jobs := [connA, connB], results := [], wg := 1 } : snmpWorker).Gather buildPerHost
        "snmp" [] [memTable]).results[3]?
      = some { Err := none,
               Result := some { Name := "memTable",
                                Rows := [{ Tags := tagsOf [("agent_host", "10.0.0.2")],
                                           Fields := [("v", "1")] }] } } ∧
    (({ jobs := [connA, connB], results := [], wg := 1 } : snmpWorker).Gather buildPerHost
        "snmp" [] [memTable]).results
      = ({ jobs := [connA, connB], results := [], wg := 1 } : snmpWorker).results ++
        (({ jobs := [connA, connB], results := [], wg := 1 } : snmpWorker).jobs.map
          (fun conn =>
            (({ jobs := [conn], results := [], wg := 1 } : snmpWorker).Gather buildPerHost
              "snmp" [] [memTable]).results)).flatten :=
  ⟨rfl, Gather_connections_processed_as_if_alone buildPerHost
    { jobs := [connA, connB], results := [], wg := 1 } "snmp" [] [memTable]⟩

/-- C15: when a builder call fails with `e`, the error outcome sent wraps `e`
with a context naming the failing gather: `agent <host>` for the top-level
table, `agent: <host>: gathering table <table name>` for a real table. -/
theorem error_outcome_wraps_with_context (build : Builder) (name : String)
    (fields : List Field) (tables : List Table) (w : snmpWorker) (conn : snmpConnection) :
    ∃ outs : List workerResult,
      (gatherConn build name fields tables w conn).results = w.results ++ outs ∧
      (∀ e, build conn { Name := name, Fields := fields, InheritTags := [] } false
          = Except.error e →
        outs[0]? = some { Err := some (Errorf e ("agent " ++ conn.Host)), Result := none }) ∧
      ∀ (i : Nat) (t : Table) (e : GoError), tables[i]? = some t →
        build conn t true = Except.error e →
        outs[i + 1]? = some
          { Err := some (Errorf e ("agent: " ++ conn.Host ++ ": gathering table " ++ t.Name)),
            Result := none } := by
  refine ⟨_, gatherConn_results build name fields tables w conn, ?_, ?_⟩
  · intro e he
    rw [List.getElem?_cons_zero, sentFor_error build conn _ ∅ false _ e he]
  · intro i t e hi he
    rw [List.getElem?_cons_succ, List.getElem?_map, hi]
    show some (sentFor _ _) = _
    rw [sentFor_error build conn t _ true _ e he]

/-- Witness of C15: the two error outcomes of `agentX` when every builder call
fails, with their context strings. -/
theorem error_outcome_wraps_with_context_witness :
    (gatherConn buildFail "snmp" [] [ifTable] idleWorker connX).results.map workerResult.Err
      = [some (GoError.nested "agent agentX" (GoError.base "timeout on snmp")),
         some (GoError.nested "agent: agentX: gathering table ifTable"
           (GoError.base "timeout on ifTable"))] ∧
    ∃ outs : List workerResult,
      (gatherConn buildFail "snmp" [] [ifTable] idleWorker connX).results
        = idleWorker.results ++ outs ∧
      (∀ e, buildFail connX { Name := "snmp", Fields := [], InheritTags := [] } false
          = Except.error e →
        outs[0]? = some { Err := some (Errorf e ("agent " ++ connX.Host)), Result := none }) ∧
      ∀ (i : Nat) (t : Table) (e : GoError), [ifTable][i]? = some t →
        buildFail connX t true = Except.error e →
        outs[i + 1]? = some
          { Err := some (Errorf e ("agent: " ++ connX.Host ++ ": gathering table " ++ t.Name)),
            Result := none } :=
  ⟨rfl, error_outcome_wraps_with_context buildFail "snmp" [] [ifTable] idleWorker connX⟩

/-- C16: a real-table pass of `gatherTable` leaves `topTags` as it was,
whatever the builder returns; hence after gathering any list of real tables
the map is still the one the first of them received, and the tags a table
inherits do not depend on the tables gathered before it. -/
theorem real_table_pass_keeps_topTags (build : Builder) (gs : snmpConnection)
    (t : Table) (topTags : TagMap) :
    (gatherTable build gs t topTags true).topTags = topTags ∧
      ∀ (earlier : List Table) (w : snmpWorker),
        (earlier.foldl (gatherRealTable build gs) (w, topTags)).2 = topTags := by
  refine ⟨gatherTable_topTags_walk build gs t topTags, ?_⟩
  intro earlier w
  rw [foldl_gatherRealTable]

/-- Witness of C16: the map `region=us` after the real-table pass of
`ifTable`, whose rows are rewritten. -/
theorem real_table_pass_keeps_topTags_witness :
    (gatherTable buildRegion connA ifTable (tagsOf [("region", "us")]) true).topTags
        = tagsOf [("region", "us")] ∧
      ∀ (earlier : List Table) (w : snmpWorker),
        (earlier.foldl (gatherRealTable buildRegion connA) (w, tagsOf [("region", "us")])).2
          = tagsOf [("region", "us")] :=
  real_table_pass_keeps_topTags buildRegion connA ifTable (tagsOf [("region", "us")])

/-- C17: when the builder succeeds, `gatherTable` returns the builder's table
with the same name, the same number of rows in the same order and the data
fields of every row unchanged; only the tag mappings of the rows may differ. -/
theorem gatherTable_changes_only_tags (build : Builder) (gs : snmpConnection)
    (t : Table) (topTags : TagMap) (walk : Bool) (rt0 : RTable)
    (hb : build gs t walk = Except.ok rt0) :
    ∃ rt, (gatherTable build gs t topTags walk).rt = some rt ∧
      rt.Name = rt0.Name ∧
      rt.Rows.length = rt0.Rows.length ∧
      rt.Rows.map RTableRow.Fields = rt0.Rows.map RTableRow.Fields ∧
      List.Forall₂ (fun tr0 tr => tr.Fields = tr0.Fields) rt0.Rows rt.Rows := by
  rw [gatherTable_ok build gs t topTags walk rt0 hb]
  refine ⟨_, rfl, rfl, by simp, ?_, ?_⟩
  · simp only [List.map_map]
    apply List.map_congr_left
    intro tr _
    exact gatherRow_fields gs t walk topTags tr
  · apply forall₂_map_self
    intro tr0 _
    exact gatherRow_fields gs t walk topTags tr0

/-- Witness of C17 on the real-table pass of `ifTable`, with two rows. -/
theorem gatherTable_changes_only_tags_witness :
    ∃ rt0, buildRegion connA ifTable true = Except.ok rt0 ∧
      rt0.Rows.map RTableRow.Fields = [[("ifDescr", "eth0")], [("ifDescr", "lo")]] ∧
      ∃ rt, (gatherTable buildRegion connA ifTable (tagsOf [("region", "us")]) true).rt = some rt ∧
        rt.Name = rt0.Name ∧
        rt.Rows.length = rt0.Rows.length ∧
        rt.Rows.map RTableRow.Fields = rt0.Rows.map RTableRow.Fields ∧
        List.Forall₂ (fun tr0 tr => tr.Fields = tr0.Fields) rt0.Rows rt.Rows :=
  ⟨_, rfl, rfl, gatherTable_changes_only_tags buildRegion connA ifTable
    (tagsOf [("region", "us")]) true _ rfl⟩

/-! ## The fallback host and a failed top-level gather -/

theorem lastRowValue_some (rows : List RTableRow) (k v : String)
    (h : lastRowValue rows k = some v) : ∃ tr ∈ rows, tr.Tags.lookup k = some v := by
  obtain ⟨tr, htr, hv⟩ := List.exists_of_findSome?_eq_some h
  exact ⟨tr, List.mem_reverse.mp htr, hv⟩

theorem lastRowValue_none (rows : List RTableRow) (k : String)
    (h : ∀ tr ∈ rows, tr.Tags.lookup k = none) : lastRowValue rows k = none :=
  List.findSome?_eq_none_iff.mpr (fun tr htr => h tr (List.mem_reverse.mp htr))

theorem inheritTags_empty (rowTags : TagMap) :
    ∀ inherit : List String, inheritTags inherit ∅ rowTags = rowTags := by
  intro inherit
  induction inherit with
  | nil => rfl
  | cons k rest ih =>
    simp only [inheritTags, List.foldl_cons, AList.lookup_empty]
    exact ih

/-- C18: in a top-level pass whose builder succeeds, the row's tags are copied
into `topTags` before the fallback `agent_host` is added to the row: an
`agent_host` value found in `topTags` afterwards was already in `topTags` or
is the builder-produced `agent_host` of some row; when neither had one,
`topTags` has none afterwards although every returned row carries
`agent_host` equal to the host of the connection. -/
theorem top_level_pass_never_propagates_fallback (build : Builder) (gs : snmpConnection)
    (t : Table) (topTags : TagMap) (rt0 : RTable)
    (hb : build gs t false = Except.ok rt0) :
    (∀ v, (gatherTable build gs t topTags false).topTags.lookup "agent_host" = some v →
        topTags.lookup "agent_host" = some v ∨
          ∃ tr0 ∈ rt0.Rows, tr0.Tags.lookup "agent_host" = some v) ∧
      (topTags.lookup "agent_host" = none →
        (∀ tr0 ∈ rt0.Rows, tr0.Tags.lookup "agent_host" = none) →
        (gatherTable build gs t topTags false).topTags.lookup "agent_host" = none ∧
          ∃ rt, (gatherTable build gs t topTags false).rt = some rt ∧
            ∀ tr ∈ rt.Rows, tr.Tags.lookup "agent_host" = some gs.Host) := by
  have hlook : (gatherTable build gs t topTags false).topTags.lookup "agent_host"
      = (match lastRowValue rt0.Rows "agent_host" with
        | some v => some v
        | none => topTags.lookup "agent_host") := by
    rw [gatherTable_ok build gs t topTags false rt0 hb]
    show ((gatherRows gs t false topTags rt0.Rows).1).lookup "agent_host" = _
    rw [gatherRows_fst_top, lookup_foldl_addTopTags]
  constructor
  · intro v hv
    rw [hlook] at hv
    cases hlast : lastRowValue rt0.Rows "agent_host" with
    | none =>
      rw [hlast] at hv
      exact Or.inl hv
    | some v1 =>
      rw [hlast] at hv
      have hv1 : v1 = v := Option.some.inj hv
      subst hv1
      exact Or.inr (lastRowValue_some rt0.Rows "agent_host" v1 hlast)
  · intro htop hrows
    constructor
    · rw [hlook, lastRowValue_none rt0.Rows "agent_host" hrows]
      exact htop
    · rw [gatherTable_ok build gs t topTags false rt0 hb]
      refine ⟨_, rfl, ?_⟩
      intro tr htr
      obtain ⟨tr0, htr0, rfl⟩ := List.mem_map.mp htr
      rw [gatherRow_tags_top, lookup_defaultAgentHost_self, hrows tr0 htr0]

/-- Witness of C18: the top-level row of `buildRegion` has no `agent_host`;
after the pass `topTags` has `region` and `site` but no `agent_host`. -/
theorem top_level_pass_never_propagates_fallback_witness :
    ∃ rt0, buildRegion connA topTable false = Except.ok rt0 ∧
      (gatherTable buildRegion connA topTable ∅ false).topTags.lookup "region" = some "us" ∧
      ((∀ v, (gatherTable buildRegion connA topTable ∅ false).topTags.lookup "agent_host"
            = some v →
          (∅ : TagMap).lookup "agent_host" = some v ∨
            ∃ tr0 ∈ rt0.Rows, tr0.Tags.lookup "agent_host" = some v) ∧
        ((∅ : TagMap).lookup "agent_host" = none →
          (∀ tr0 ∈ rt0.Rows, tr0.Tags.lookup "agent_host" = none) →
          (gatherTable buildRegion connA topTable ∅ false).topTags.lookup "agent_host" = none ∧
            ∃ rt, (gatherTable buildRegion connA topTable ∅ false).rt = some rt ∧
              ∀ tr ∈ rt.Rows, tr.Tags.lookup "agent_host" = some connA.Host)) :=
  ⟨_, rfl, by decide,
    top_level_pass_never_propagates_fallback buildRegion connA topTable ∅ _ rfl⟩

/-- C19: when the top-level builder call of a connection fails, `topTags`
stays empty for that connection, and every table of the connection whose own
builder call succeeds is sent with no inherited tag, whatever its
`InheritTags`: each row has its builder-produced tags, with `agent_host` set
to the host of the connection when the builder did not supply one, and its
fields unchanged. -/
theorem top_level_failure_nothing_inherited (build : Builder) (name : String)
    (fields : List Field) (tables : List Table) (w : snmpWorker) (conn : snmpConnection)
    (e : GoError)
    (hfail : build conn { Name := name, Fields := fields, InheritTags := [] } false
      = Except.error e) :
    (gatherTable build conn { Name := name, Fields := fields, InheritTags := [] } ∅
        false).topTags = ∅ ∧
    ∃ outs : List workerResult,
      (gatherConn build name fields tables w conn).results = w.results ++ outs ∧
      ∀ (i : Nat) (t : Table) (rt0 : RTable), tables[i]? = some t →
        build conn t true = Except.ok rt0 →
        outs[i + 1]? = some
          { Err := none,
            Result := some
              { Name := rt0.Name,
                Rows := rt0.Rows.map (fun tr =>
                  { Tags := (match tr.Tags.lookup "agent_host" with
                      | some _ => tr.Tags
                      | none => tr.Tags.insert "agent_host" conn.Host),
                    Fields := tr.Fields }) } } := by
  have htop := gatherTable_error build conn { Name := name, Fields := fields } ∅ false e hfail
  refine ⟨by rw [htop], _, gatherConn_results build name fields tables w conn, ?_⟩
  intro i t rt0 hi hok
  rw [List.getElem?_cons_succ, List.getElem?_map, hi, htop]
  show some (sentFor (gatherTable build conn t ∅ true) _) = _
  rw [sentFor_ok build conn t ∅ true _ rt0 hok]
  have hrow : ∀ tr : RTableRow, (gatherRow conn t true ∅ tr).2
      = { Tags := (match tr.Tags.lookup "agent_host" with
            | some _ => tr.Tags
            | none => tr.Tags.insert "agent_host" conn.Host),
          Fields := tr.Fields } := by
    intro tr
    show ({ tr with Tags := defaultAgentHost conn (inheritTags t.InheritTags ∅ tr.Tags) }
      : RTableRow) = _
    rw [inheritTags_empty]
    rfl
  simp only [hrow]

/-- Witness of C19: on `agentX` the top-level builder call fails; `memTable`,
which lists `region` in `InheritTags`, is sent with its builder-produced tag
and the fallback `agent_host` only. -/
theorem top_level_failure_nothing_inherited_witness :
    buildPartial connX { Name := "snmp", Fields := [], InheritTags := [] } false
        = Except.error (GoError.base "timeout on snmp") ∧
      (gatherConn buildPartial "snmp" [] [memTable] idleWorker connX).results[1]?
        = some { Err := none,
                 Result := some
                   { Name := "memTable",
                     Rows := [{ Tags := tagsOf [("agent_host", "agentX"), ("host", "agentX")],
                                Fields := [] }] } } ∧
      (gatherTable buildPartial connX { Name := "snmp", Fields := [], InheritTags := [] } ∅
          false).topTags = ∅ ∧
      ∃ outs : List workerResult,
        (gatherConn buildPartial "snmp" [] [memTable] idleWorker connX).results
          = idleWorker.results ++ outs ∧
        ∀ (i : Nat) (t : Table) (rt0 : RTable), [memTable][i]? = some t →
          buildPartial connX t true = Except.ok rt0 →
          outs[i + 1]? = some
            { Err := none,
              Result := some
                { Name := rt0.Name,
                  Rows := rt0.Rows.map (fun tr =>
                    { Tags := (match tr.Tags.lookup "agent_host" with
                        | some _ => tr.Tags
                        | none => tr.Tags.insert "agent_host" connX.Host),
                      Fields := tr.Fields }) } } :=
  ⟨rfl, rfl, top_level_failure_nothing_inherited buildPartial "snmp" [] [memTable] idleWorker
    connX (GoError.base "timeout on snmp") rfl⟩

end Snmp

namespace Snmp

/-! ## Lemmas on the pool -/

theorem mem_labelFrom (job : Nat) :
    ∀ (os : List workerResult) (k : Nat) (x : Emission),
      x ∈ labelFrom job k os → x.job = job ∧ k ≤ x.pos := by
  intro os
  induction os with
  | nil => intro k x hx; simp [labelFrom] at hx
  | cons o os ih =>
    intro k x hx
    simp only [labelFrom, List.mem_cons] at hx
    rcases hx with rfl | hx
    · exact ⟨rfl, Nat.le_refl _⟩
    · obtain ⟨h1, h2⟩ := ih (k + 1) x hx
      exact ⟨h1, by omega⟩

theorem length_labelFrom (job : Nat) :
    ∀ (os : List workerResult) (k : Nat), (labelFrom job k os).length = os.length := by
  intro os
  induction os with
  | nil => intro k; rfl
  | cons o os ih => intro k; simp [labelFrom, ih]

theorem map_pos_labelFrom (job : Nat) :
    ∀ (os : List workerResult) (k : Nat),
      (labelFrom job k os).map Emission.pos = List.range' k os.length := by
  intro os
  induction os with
  | nil => intro k; rfl
  | cons o os ih => intro k; simp [labelFrom, ih, List.range'_succ]

theorem filter_labelFrom_pos_pos (job : Nat) (os : List workerResult) (k : Nat) :
    (labelFrom job (k + 1) os).filter (fun x => decide (x.pos = 0)) = [] := by
  apply List.filter_eq_nil_iff.mpr
  intro x hx
  have := (mem_labelFrom job os (k + 1) x hx).2
  simp
  omega

theorem filter_labelFrom_pos_ne (job : Nat) (os : List workerResult) (k : Nat) :
    (labelFrom job (k + 1) os).filter (fun x => decide (x.pos ≠ 0)) = labelFrom job (k + 1) os := by
  apply List.filter_eq_self.mpr
  intro x hx
  have := (mem_labelFrom job os (k + 1) x hx).2
  simp
  omega

theorem filter_job_labelFrom_self (job : Nat) (os : List workerResult) (k : Nat) :
    (labelFrom job k os).filter (fun x => decide (x.job = job)) = labelFrom job k os := by
  apply List.filter_eq_self.mpr
  intro x hx
  simp [(mem_labelFrom job os k x hx).1]

theorem filter_job_labelFrom_ne (job i : Nat) (hne : job ≠ i) (os : List workerResult)
    (k : Nat) : (labelFrom job k os).filter (fun x => decide (x.job = i)) = [] := by
  apply List.filter_eq_nil_iff.mpr
  intro x hx
  simp [(mem_labelFrom job os k x hx).1, hne]

theorem connEmissions_eq (build : Builder) (name : String) (fields : List Field)
    (tables : List Table) (j : Nat × snmpConnection) :
    connEmissions build name fields tables j
      = { job := j.1, pos := 0,
          out := sentFor (gatherTable build j.2 { Name := name, Fields := fields } ∅ false)
            ("agent " ++ j.2.Host) } ::
        labelFrom j.1 1 (tables.map (fun t =>
          sentFor (gatherTable build j.2 t
              (gatherTable build j.2 { Name := name, Fields := fields } ∅ false).topTags true)
            ("agent: " ++ j.2.Host ++ ": gathering table " ++ t.Name))) := by
  unfold connEmissions
  rw [gatherConn_results]
  rfl

theorem connEmissions_count_top (build : Builder) (name : String) (fields : List Field)
    (tables : List Table) (j : Nat × snmpConnection) :
    ((connEmissions build name fields tables j).filter
      (fun x => decide (x.pos = 0))).length = 1 := by
  rw [connEmissions_eq, List.filter_cons_of_pos (by simp), filter_labelFrom_pos_pos]
  rfl

theorem connEmissions_count_real (build : Builder) (name : String) (fields : List Field)
    (tables : List Table) (j : Nat × snmpConnection) :
    ((connEmissions build name fields tables j).filter
      (fun x => decide (x.pos ≠ 0))).length = tables.length := by
  rw [connEmissions_eq, List.filter_cons_of_neg (by simp), filter_labelFrom_pos_ne,
    length_labelFrom, List.length_map]

theorem count_top_flatten (build : Builder) (name : String) (fields : List Field)
    (tables : List Table) :
    ∀ jobs : List (Nat × snmpConnection),
      (((jobs.map (connEmissions build name fields tables)).flatten).filter
        (fun x => decide (x.pos = 0))).length = jobs.length := by
  intro jobs
  induction jobs with
  | nil => rfl
  | cons j rest ih =>
    rw [List.map_cons, List.flatten_cons, List.filter_append, List.length_append, ih,
      connEmissions_count_top, List.length_cons]
    omega

theorem count_real_flatten (build : Builder) (name : String) (fields : List Field)
    (tables : List Table) :
    ∀ jobs : List (Nat × snmpConnection),
      (((jobs.map (connEmissions build name fields tables)).flatten).filter
        (fun x => decide (x.pos ≠ 0))).length = jobs.length * tables.length := by
  intro jobs
  induction jobs with
  | nil => simp
  | cons j rest ih =>
    rw [List.map_cons, List.flatten_cons, List.filter_append, List.length_append, ih,
      connEmissions_count_real, List.length_cons]
    ring

theorem job_ge_of_mem_flatten (build : Builder) (name : String) (fields : List Field)
    (tables : List Table) :
    ∀ (conns : List snmpConnection) (k : Nat) (x : Emission),
      x ∈ ((conns.enumFrom k).map (connEmissions build name fields tables)).flatten →
      k ≤ x.job := by
  intro conns
  induction conns with
  | nil => intro k x hx; simp at hx
  | cons c rest ih =>
    intro k x hx
    rw [List.enumFrom_cons, List.map_cons, List.flatten_cons, List.mem_append] at hx
    rcases hx with hx | hx
    · have := (mem_labelFrom k _ 0 x hx).1
      omega
    · have := ih (k + 1) x hx
      omega

theorem filter_job_flatten (build : Builder) (name : String) (fields : List Field)
    (tables : List Table) :
    ∀ (conns : List snmpConnection) (k i : Nat) (c : snmpConnection),
      conns[i]? = some c →
      (((conns.enumFrom k).map (connEmissions build name fields tables)).flatten).filter
          (fun x => decide (x.job = k + i))
        = connEmissions build name fields tables (k + i, c) := by
  intro conns
  induction conns with
  | nil => intro k i c hc; simp at hc
  | cons c0 rest ih =>
    intro k i c hc
    rw [List.enumFrom_cons, List.map_cons, List.flatten_cons, List.filter_append]
    cases i with
    | zero =>
      have hc0 : c0 = c := by simpa using hc
      subst hc0
      have hrest : (((rest.enumFrom (k + 1)).map
          (connEmissions build name fields tables)).flatten).filter
            (fun x => decide (x.job = k + 0)) = [] := by
        apply List.filter_eq_nil_iff.mpr
        intro x hx
        have := job_ge_of_mem_flatten build name fields tables rest (k + 1) x hx
        simp
        omega
      rw [hrest, List.append_nil]
      exact filter_job_labelFrom_self k _ 0
    | succ n =>
      have hc1 : rest[n]? = some c := by simpa using hc
      have hhead : (connEmissions build name fields tables (k, c0)).filter
          (fun x => decide (x.job = k + (n + 1))) = [] :=
        filter_job_labelFrom_ne k (k + (n + 1)) (by omega) _ 0
      rw [hhead, List.nil_append]
      have := ih (k + 1) n c hc1
      have hidx : k + 1 + n = k + (n + 1) := by omega
      rw [hidx] at this
      exact this

theorem split_at_index {α : Type} :
    ∀ (l : List α) (w : Nat) (p : α), l[w]? = some p →
      ∃ a b, l = a ++ p :: b ∧ ∀ q, l.set w q = a ++ q :: b := by
  intro l
  induction l with
  | nil => intro w p h; simp at h
  | cons h t ih =>
    intro w p hp
    cases w with
    | zero =>
      have : h = p := by simpa using hp
      subst this
      exact ⟨[], t, rfl, fun q => rfl⟩
    | succ n =>
      have hp1 : t[n]? = some p := by simpa using hp
      obtain ⟨a, b, hab, hset⟩ := ih n p hp1
      refine ⟨h :: a, b, by rw [hab]; rfl, fun q => ?_⟩
      rw [List.set_cons_succ, hset q]
      rfl

theorem poolStep_cases (build : Builder) (name : String) (fields : List Field)
    (tables : List Table) (s : PoolState) (w : Nat) :
    poolStep build name fields tables s w = s ∨
    (∃ a x xs b, s.workers = a ++ (x :: xs) :: b ∧
      poolStep build name fields tables s w
        = { jobs := s.jobs, workers := a ++ xs :: b, results := s.results ++ [x] }) ∨
    (∃ a b j rest, s.workers = a ++ [] :: b ∧ s.jobs = j :: rest ∧
      poolStep build name fields tables s w
        = { jobs := rest,
            workers := a ++ connEmissions build name fields tables j :: b,
            results := s.results }) := by
  cases hw : s.workers[w]? with
  | none => exact Or.inl (by simp only [poolStep, hw])
  | some p =>
    obtain ⟨a, b, hab, hset⟩ := split_at_index s.workers w p hw
    cases p with
    | cons x xs =>
      refine Or.inr (Or.inl ⟨a, x, xs, b, hab, ?_⟩)
      simp only [poolStep, hw, hset]
    | nil =>
      cases hj : s.jobs with
      | nil => exact Or.inl (by simp only [poolStep, hw, hj])
      | cons j rest =>
        refine Or.inr (Or.inr ⟨a, b, j, rest, hab, rfl, ?_⟩)
        simp only [poolStep, hw, hj, hset]

theorem poolDone_iff (s : PoolState) :
    poolDone s = true ↔ s.jobs = [] ∧ ∀ p ∈ s.workers, p = [] := by
  simp [poolDone, List.isEmpty_iff]

theorem poolRun_cons (build : Builder) (name : String) (fields : List Field)
    (tables : List Table) (w : Nat) (sched : List Nat) (s : PoolState) :
    poolRun build name fields tables (w :: sched) s
      = poolRun build name fields tables sched (poolStep build name fields tables s w) := rfl

theorem poolRun_invariant (build : Builder) (name : String) (fields : List Field)
    (tables : List Table) :
    ∀ (sched : List Nat) (s : PoolState),
      poolDone (poolRun build name fields tables sched s) = true →
      ∃ L, (poolRun build name fields tables sched s).results = s.results ++ L ∧
        L.Perm (poolPending build name fields tables s).flatten ∧
        ∀ q ∈ poolPending build name fields tables s, q.Sublist L := by
  intro sched
  induction sched with
  | nil =>
    intro s hdone
    obtain ⟨hjobs, hws⟩ := (poolDone_iff s).mp hdone
    have hall : ∀ q ∈ poolPending build name fields tables s, q = [] := by
      intro q hq
      simp only [poolPending, hjobs, List.map_nil, List.append_nil] at hq
      exact hws q hq
    refine ⟨[], by simp [poolRun], ?_, ?_⟩
    · rw [List.flatten_eq_nil_iff.mpr hall]
    · intro q hq
      rw [hall q hq]
  | cons w sched ih =>
    intro s hdone
    rw [poolRun_cons] at hdone ⊢
    obtain ⟨L, hres, hperm, hsub⟩ := ih _ hdone
    rcases poolStep_cases build name fields tables s w with h | ⟨a, x, xs, b, hab, h⟩ |
      ⟨a, b, j, rest, hab, hj, h⟩
    · rw [h] at hres hperm hsub ⊢
      exact ⟨L, hres, hperm, hsub⟩
    · rw [h] at hres hperm hsub ⊢
      refine ⟨x :: L, by simpa using hres, ?_, ?_⟩
      · simp only [poolPending, hab, List.flatten_append, List.flatten_cons,
          List.append_assoc, List.cons_append] at hperm ⊢
        exact (List.Perm.cons x hperm).trans List.perm_middle.symm
      · intro q hq
        simp only [poolPending, hab, List.mem_append, List.mem_cons] at hq hsub
        rcases hq with (hq | rfl | hq) | hq
        · exact (hsub q (Or.inl (Or.inl hq))).cons x
        · exact (hsub xs (Or.inl (Or.inr (Or.inl rfl)))).cons₂ x
        · exact (hsub q (Or.inl (Or.inr (Or.inr hq)))).cons x
        · exact (hsub q (Or.inr hq)).cons x
    · rw [h] at hres hperm hsub ⊢
      refine ⟨L, hres, ?_, ?_⟩
      · simp only [poolPending, hab, hj, List.map_cons, List.flatten_append,
          List.flatten_cons, List.append_assoc, List.nil_append] at hperm ⊢
        refine hperm.trans (List.Perm.append_left _ ?_)
        rw [← List.append_assoc, ← List.append_assoc]
        exact List.Perm.append_right _ List.perm_append_comm
      · intro q hq
        simp only [poolPending, hab, hj, List.map_cons, List.mem_append, List.mem_cons] at hq hsub
        rcases hq with (hq | rfl | hq) | rfl | hq
        · exact hsub q (Or.inl (Or.inl hq))
        · exact List.nil_sublist _
        · exact hsub q (Or.inl (Or.inr (Or.inr hq)))
        · exact hsub _ (Or.inl (Or.inr (Or.inl rfl)))
        · exact hsub q (Or.inr hq)

theorem poolRun_append (build : Builder) (name : String) (fields : List Field)
    (tables : List Table) (sched1 sched2 : List Nat) (s : PoolState) :
    poolRun build name fields tables (sched1 ++ sched2) s
      = poolRun build name fields tables sched2
          (poolRun build name fields tables sched1 s) := by
  simp only [poolRun, List.foldl_append]

theorem poolRun_sends (build : Builder) (name : String) (fields : List Field)
    (tables : List Table) (jobs : List (Nat × snmpConnection)) (ws : List (List Emission)) :
    ∀ (p : List Emission) (results : List Emission),
      poolRun build name fields tables (List.replicate p.length 0)
          { jobs := jobs, workers := p :: ws, results := results }
        = { jobs := jobs, workers := [] :: ws, results := results ++ p } := by
  intro p
  induction p with
  | nil => intro results; simp [poolRun]
  | cons x xs ih =>
    intro results
    rw [List.length_cons, List.replicate_succ, poolRun_cons]
    have hstep : poolStep build name fields tables
        { jobs := jobs, workers := (x :: xs) :: ws, results := results } 0
        = { jobs := jobs, workers := xs :: ws, results := results ++ [x] } := by
      simp [poolStep]
    rw [hstep, ih]
    simp

theorem poolRun_one_worker_finishes (build : Builder) (name : String) (fields : List Field)
    (tables : List Table) (ws : List (List Emission)) (hws : ∀ p ∈ ws, p = []) :
    ∀ (jobs : List (Nat × snmpConnection)) (results : List Emission),
      ∃ sched, poolDone (poolRun build name fields tables sched
        { jobs := jobs, workers := [] :: ws, results := results }) = true := by
  intro jobs
  induction jobs with
  | nil =>
    intro results
    refine ⟨[], ?_⟩
    rw [poolDone_iff]
    refine ⟨rfl, ?_⟩
    intro p hp
    rcases List.mem_cons.mp hp with h | h
    · exact h
    · exact hws p h
  | cons j rest ih =>
    intro results
    obtain ⟨sched, hsched⟩ := ih (results ++ connEmissions build name fields tables j)
    refine ⟨0 :: (List.replicate (connEmissions build name fields tables j).length 0 ++ sched),
      ?_⟩
    have hstep : poolStep build name fields tables
        { jobs := j :: rest, workers := [] :: ws, results := results } 0
        = { jobs := rest, workers := connEmissions build name fields tables j :: ws,
            results := results } := by
      simp [poolStep]
    rw [poolRun_cons, hstep, poolRun_append, poolRun_sends]
    exact hsched

/-- C13: in the pool of `W` workers sharing one job queue holding the `N`
connections and one result queue, whatever the schedule of the workers' steps:
when the job queue is drained and every worker has finished, the result queue
holds exactly `N` top-level outcomes and `N * m` real-table outcomes (`m`
configured tables), and the outcomes of each connection stand on the queue in
the order of its iteration of `Gather`, the top-level outcome first; with at
least one worker some schedule reaches that state. -/
theorem pool_outcomes_complete_and_ordered (build : Builder) (name : String)
    (fields : List Field) (tables : List Table) (conns : List snmpConnection) (W : Nat) :
    (1 ≤ W → ∃ sched,
      poolDone (poolRun build name fields tables sched (poolStart conns W)) = true) ∧
    ∀ sched, poolDone (poolRun build name fields tables sched (poolStart conns W)) = true →
      ((poolRun build name fields tables sched (poolStart conns W)).results.filter
        (fun x => decide (x.pos = 0))).length = conns.length ∧
      ((poolRun build name fields tables sched (poolStart conns W)).results.filter
        (fun x => decide (x.pos ≠ 0))).length = conns.length * tables.length ∧
      ∀ (i : Nat) (c : snmpConnection), conns[i]? = some c →
        (poolRun build name fields tables sched (poolStart conns W)).results.filter
            (fun x => decide (x.job = i))
          = labelFrom i 0 (gatherConn build name fields tables idleWorker c).results ∧
        ((poolRun build name fields tables sched (poolStart conns W)).results.filter
            (fun x => decide (x.job = i))).map Emission.pos
          = List.range (1 + tables.length) := by
  constructor
  · intro hW
    obtain ⟨n, rfl⟩ : ∃ n, W = n + 1 := ⟨W - 1, by omega⟩
    have := poolRun_one_worker_finishes build name fields tables (List.replicate n [])
      (fun p hp => (List.mem_replicate.mp hp).2) (conns.enumFrom 0) []
    simpa only [poolStart, List.replicate_succ] using this
  · intro sched hdone
    obtain ⟨L, hres, hperm, hsub⟩ := poolRun_invariant build name fields tables sched _ hdone
    have hL : (poolRun build name fields tables sched (poolStart conns W)).results = L := by
      rw [hres]; rfl
    have hflat : (poolPending build name fields tables (poolStart conns W)).flatten
        = ((conns.enumFrom 0).map (connEmissions build name fields tables)).flatten := by
      have hrep : (List.replicate W ([] : List Emission)).flatten = [] :=
        List.flatten_eq_nil_iff.mpr (fun p hp => (List.mem_replicate.mp hp).2)
      simp only [poolPending, poolStart, List.flatten_append, hrep, List.nil_append]
    rw [hflat] at hperm
    rw [hL]
    refine ⟨?_, ?_, ?_⟩
    · rw [(hperm.filter _).length_eq, count_top_flatten, List.enumFrom_length]
    · rw [(hperm.filter _).length_eq, count_real_flatten, List.enumFrom_length]
    · intro i c hc
      have hfilter := filter_job_flatten build name fields tables conns 0 i c hc
      rw [Nat.zero_add] at hfilter
      have hmem : connEmissions build name fields tables (i, c)
          ∈ poolPending build name fields tables (poolStart conns W) := by
        simp only [poolPending, poolStart, List.mem_append, List.mem_map]
        refine Or.inr ⟨(i, c), ?_, rfl⟩
        rw [List.mem_iff_getElem?]
        exact ⟨i, by simp [List.getElem?_enumFrom, hc]⟩
      have hsubi := (hsub _ hmem).filter (fun x => decide (x.job = i))
      rw [show (connEmissions build name fields tables (i, c)).filter
          (fun x => decide (x.job = i)) = connEmissions build name fields tables (i, c) from
        filter_job_labelFrom_self i _ 0] at hsubi
      have hlen : (connEmissions build name fields tables (i, c)).length
          = (L.filter (fun x => decide (x.job = i))).length := by
        rw [(hperm.filter _).length_eq, hfilter]
      have heq := hsubi.eq_of_length hlen
      have heq1 : L.filter (fun x => decide (x.job = i))
          = labelFrom i 0 (gatherConn build name fields tables idleWorker c).results :=
        heq.symm
      refine ⟨heq1, ?_⟩
      rw [heq1, map_pos_labelFrom, gatherConn_results_length, List.range_eq_range']
      simp [idleWorker]

/-- Witness of C13: two connections, two workers, one table; the schedule lets
the second worker finish its top-level send first. -/
theorem pool_outcomes_complete_and_ordered_witness :
    poolDone (poolRun buildRegion "snmp" [] [ifTable] [0, 1, 1, 0, 0, 1]
        (poolStart [connA, connB] 2)) = true ∧
      (poolRun buildRegion "snmp" [] [ifTable] [0, 1, 1, 0, 0, 1]
          (poolStart [connA, connB] 2)).results.map (fun x => (x.job, x.pos))
        = [(1, 0), (0, 0), (0, 1), (1, 1)] ∧
      ((poolRun buildRegion "snmp" [] [ifTable] [0, 1, 1, 0, 0, 1]
          (poolStart [connA, connB] 2)).results.filter
        (fun x => decide (x.pos = 0))).length = [connA, connB].length ∧
      ((poolRun buildRegion "snmp" [] [ifTable] [0, 1, 1, 0, 0, 1]
          (poolStart [connA, connB] 2)).results.filter
        (fun x => decide (x.pos ≠ 0))).length = [connA, connB].length * [ifTable].length ∧
      ∀ (i : Nat) (c : snmpConnection), [connA, connB][i]? = some c →
        (poolRun buildRegion "snmp" [] [ifTable] [0, 1, 1, 0, 0, 1]
            (poolStart [connA, connB] 2)).results.filter (fun x => decide (x.job = i))
          = labelFrom i 0 (gatherConn buildRegion "snmp" [] [ifTable] idleWorker c).results ∧
        ((poolRun buildRegion "snmp" [] [ifTable] [0, 1, 1, 0, 0, 1]
            (poolStart [connA, connB] 2)).results.filter
              (fun x => decide (x.job = i))).map Emission.pos
          = List.range (1 + [ifTable].length) :=
  ⟨by decide, by decide,
    (pool_outcomes_complete_and_ordered buildRegion "snmp" [] [ifTable] [connA, connB] 2).2
      [0, 1, 1, 0, 0, 1] (by decide)⟩

end Snmp
